import Mathlib

/-!
Shallow embedding of the ops-dashboard consolidation pipeline
(`ops_dashboard/normalization.py`, `ops_dashboard/consolidation.py`,
`ops_dashboard/reporting.py`) and proofs about it.

Conventions of the embedding:
* A pandas "cell" that can be `None`/`NaN` is an `Option _`; a missing value is `none`.
* Strings are processed as `List Char`; Python `str.upper` is modelled by
  `Char.toUpper` (faithful on ASCII, which is all the pipeline's vocabulary uses),
  Python `\s` / `str.strip()` by the ASCII whitespace class, and the regex class
  `\d` by the ASCII digits `0`-`9`.
* Python `repr` of a string (used in f-string error messages) is modelled for
  strings that contain no quote or escape characters: the text wrapped in
  single quotes.
* Fallible code (the `KeyError` reachable in `_detect_conflicts`) is modelled
  with `Except`.
-/

/-- Single-quote character, used to model Python `repr` of a string. -/
def sqChar : Char := Char.ofNat 39

/-- Model of Python `repr` for strings without quotes/escapes: wrap in single quotes. -/
def pyRepr (s : String) : String :=
  String.singleton sqChar ++ s ++ String.singleton sqChar

/-- ASCII whitespace recognized by Python `str.strip()` and the regex class `\s`. -/
def isPySpace (c : Char) : Bool :=
  c = ' ' || c = '\t' || c = '\n' || c = '\r' || c = Char.ofNat 11 || c = Char.ofNat 12

/-- ASCII decimal digit: model of the regex class `\d`. -/
def isDig (c : Char) : Bool :=
  c = '0' || c = '1' || c = '2' || c = '3' || c = '4' ||
  c = '5' || c = '6' || c = '7' || c = '8' || c = '9'

/-- Model of Python `str.strip()`: drop leading and trailing whitespace. -/
def pyStrip (cs : List Char) : List Char :=
  ((cs.dropWhile isPySpace).reverse.dropWhile isPySpace).reverse

/-- Model of Python `str.upper()` (ASCII). -/
def pyUpper (cs : List Char) : List Char :=
  cs.map Char.toUpper

/-- Model of Python `str.lower()` (ASCII). -/
def pyLower (cs : List Char) : List Char :=
  cs.map Char.toLower

/-- Model of `corrected = raw_text.replace("L0T", "LOT")`: replace every
(leftmost, non-overlapping) occurrence of `L0T` by `LOT`. -/
def replaceL0T : List Char → List Char
  | [] => []
  | [c] => [c]
  | [c, d] => [c, d]
  | c :: d :: e :: rest =>
    if c = 'L' ∧ d = '0' ∧ e = 'T' then 'L' :: 'O' :: 'T' :: replaceL0T rest
    else c :: replaceL0T (d :: e :: rest)

/-- Characters removed by `re.sub(r"[\s\-_]+", "", corrected)`. -/
def isSepChar (c : Char) : Bool :=
  isPySpace c || c = '-' || c = '_'

/-- Model of `re.sub(r"^LOT(\d{8})(\d{3})$", r"LOT-\1-\2", compact)`: if the whole
string is `LOT` + 8 digits + 3 digits, reinsert the two hyphens; otherwise leave
the string unchanged. -/
def structuredOf (cs : List Char) : List Char :=
  match cs with
  | a :: b :: c :: rest =>
    if a = 'L' ∧ b = 'O' ∧ c = 'T' ∧ rest.length = 11 ∧ rest.all isDig then
      'L' :: 'O' :: 'T' :: '-' :: (rest.take 8 ++ '-' :: rest.drop 8)
    else a :: b :: c :: rest
  | _ => cs

/-- Consume the optional separator `[-_ ]?` of `LOT_PATTERN` (greedy; since a
separator can never start the following digit group, consuming it whenever it is
present is equivalent to the regex's backtracking behaviour). -/
def seqSepOpt (cs : List Char) : List Char :=
  match cs with
  | c :: rest => if c = '-' || c = '_' || c = ' ' then rest else cs
  | [] => []

/-- Attempt to match `LOT[-_ ]?(\d{8})[-_ ]?(\d{3})` at the head of the list,
returning the two capture groups. -/
def lotMatchAt (cs : List Char) : Option (List Char × List Char) :=
  match cs with
  | a :: b :: c :: rest =>
    if a = 'L' ∧ b = 'O' ∧ c = 'T' then
      let r1 := seqSepOpt rest
      let d8 := r1.take 8
      if d8.length = 8 ∧ d8.all isDig then
        let r2 := seqSepOpt (r1.drop 8)
        let d3 := r2.take 3
        if d3.length = 3 ∧ d3.all isDig then some (d8, d3) else none
      else none
    else none
  | _ => none

/-- Model of `LOT_PATTERN.search`: try `lotMatchAt` at each position, left to right. -/
def lotSearch : List Char → Option (List Char × List Char)
  | [] => none
  | c :: rest =>
    match lotMatchAt (c :: rest) with
    | some g => some g
    | none => lotSearch rest

/-- Result object of lot normalization (`LotNormalization` dataclass). -/
structure LotNormalization where
  canonical_lot_id : Option String
  status : String
  reason : Option String
deriving DecidableEq, Repr

/-- Model of `normalize_lot_id` from `ops_dashboard/normalization.py`.
The input `none` stands for Python `None` / float `NaN`; `some s` stands for a
value whose `str()` conversion is `s`. -/
def normalize_lot_id (raw_lot_id : Option String) : LotNormalization :=
  match raw_lot_id with
  | none => ⟨none, "needs_review", some "Lot ID is empty"⟩
  | some raw =>
    let raw_text := pyUpper (pyStrip raw.toList)
    if raw_text = [] then ⟨none, "needs_review", some "Lot ID is blank"⟩
    else
      let corrected := replaceL0T raw_text
      let compact := corrected.filter (fun c => !isSepChar c)
      let structured := structuredOf compact
      match lotSearch structured with
      | none =>
        ⟨none, "needs_review",
          some ("Lot ID does not match expected pattern: " ++ pyRepr raw)⟩
      | some (d8, d3) =>
        ⟨some ("LOT-" ++ String.mk d8 ++ "-" ++ String.mk d3), "ok", none⟩

/-- The compacted form of an input string: strip, uppercase, fix the `L0T` typo,
remove separator characters.  This is the intermediate value `compact` inside
`normalize_lot_id`. -/
def compactOf (raw : String) : List Char :=
  (replaceL0T (pyUpper (pyStrip raw.toList))).filter (fun c => !isSepChar c)

/-- Does `LOT` followed immediately by 11 ASCII digits occur at the head? -/
def coreAt (cs : List Char) : Bool :=
  match cs with
  | a :: b :: c :: rest =>
    a = 'L' && b = 'O' && c = 'T' && (rest.take 11).length = 11 && (rest.take 11).all isDig
  | _ => false

/-- Does the list contain an occurrence of `LOT` followed immediately by 11 digits? -/
def hasLotCore : List Char → Bool
  | [] => false
  | c :: rest => coreAt (c :: rest) || hasLotCore rest

/-- Day-granularity-capable timestamp (model of `pd.Timestamp`). -/
structure Timestamp where
  year : Nat
  month : Nat
  day : Nat
  hour : Nat
  minute : Nat
  second : Nat
deriving DecidableEq, Repr

/-- Model of `pd.Timestamp.normalize()`: truncate to day granularity. -/
def Timestamp.normalize (t : Timestamp) : Timestamp :=
  { t with hour := 0, minute := 0, second := 0 }

/-- Chronological sort key.  For timestamps whose fields are in their calendar
ranges (always true for parser outputs, where every field below `year` is
below 100) this encoding is strictly monotone in chronological order, so
comparing keys models comparing `pd.Timestamp` values. -/
def Timestamp.key (t : Timestamp) : Nat :=
  ((((t.year * 100 + t.month) * 100 + t.day) * 100 + t.hour) * 100 + t.minute) * 100 + t.second

/-- Numeric value of a digit list (most significant first). -/
def digitsVal (cs : List Char) : Nat :=
  cs.foldl (fun a c => a * 10 + (c.toNat - 48)) 0

/-- Gregorian leap year. -/
def isLeapYear (y : Nat) : Bool :=
  (y % 4 = 0 && y % 100 ≠ 0) || y % 400 = 0

/-- Days in a month of the Gregorian calendar. -/
def monthDays (y m : Nat) : Nat :=
  if m = 2 then (if isLeapYear y then 29 else 28)
  else if m = 4 || m = 6 || m = 9 || m = 11 then 30
  else 31

/-- Validate a (year, month, day) triple. -/
def mkDate (y m d : Nat) : Option (Nat × Nat × Nat) :=
  if 1 ≤ m ∧ m ≤ 12 ∧ 1 ≤ d ∧ d ≤ monthDays y m then some (y, m, d) else none

/-- Modelled from the spec: the date grammar accepted by `pd.to_datetime`
(a third-party library call), restricted to the forms the spec names:
ISO `YYYY-MM-DD`, `YYYY/MM/DD`, and US `MM/DD/YYYY`, with calendar validation. -/
def parseDatePart (cs : List Char) : Option (Nat × Nat × Nat) :=
  match cs with
  | [a, b, c, d, e, f, g, h, i, j] =>
    if e = '-' ∧ h = '-' ∧ [a, b, c, d, f, g, i, j].all isDig then
      mkDate (digitsVal [a, b, c, d]) (digitsVal [f, g]) (digitsVal [i, j])
    else if e = '/' ∧ h = '/' ∧ [a, b, c, d, f, g, i, j].all isDig then
      mkDate (digitsVal [a, b, c, d]) (digitsVal [f, g]) (digitsVal [i, j])
    else if c = '/' ∧ f = '/' ∧ [a, b, d, e, g, h, i, j].all isDig then
      mkDate (digitsVal [g, h, i, j]) (digitsVal [a, b]) (digitsVal [d, e])
    else none
  | _ => none

/-- Modelled from the spec: optional time-of-day part `HH:MM` or `HH:MM:SS`. -/
def parseTimePart (cs : List Char) : Option (Nat × Nat × Nat) :=
  match cs with
  | [a, b, c, d, e] =>
    if c = ':' ∧ [a, b, d, e].all isDig then
      let hh := digitsVal [a, b]; let mm := digitsVal [d, e]
      if hh ≤ 23 ∧ mm ≤ 59 then some (hh, mm, 0) else none
    else none
  | [a, b, c, d, e, f, g, h] =>
    if c = ':' ∧ f = ':' ∧ [a, b, d, e, g, h].all isDig then
      let hh := digitsVal [a, b]; let mm := digitsVal [d, e]; let ss := digitsVal [g, h]
      if hh ≤ 23 ∧ mm ≤ 59 ∧ ss ≤ 59 then some (hh, mm, ss) else none
    else none
  | _ => none

/-- Modelled from the spec: `pd.to_datetime(value, errors="coerce")` on a string,
for the date forms named in the spec (an unrecognized string — including the
empty string — coerces to `NaT`, i.e. `none`). -/
def pd_to_datetime (s : String) : Option Timestamp :=
  match s.toList.splitOn ' ' with
  | [d] => (parseDatePart d).map (fun x => ⟨x.1, x.2.1, x.2.2, 0, 0, 0⟩)
  | [d, t] =>
    match parseDatePart d, parseTimePart t with
    | some x, some u => some ⟨x.1, x.2.1, x.2.2, u.1, u.2.1, u.2.2⟩
    | _, _ => none
  | _ => none

/-- Model of `parse_mixed_date` from `ops_dashboard/normalization.py`.
`none` input stands for Python `None` / float `NaN` (note: the empty string is
a `str`, not `None`, so it is not caught by that check). -/
def parse_mixed_date (value : Option String) : Option Timestamp × Option String :=
  match value with
  | none => (none, some "Date is empty")
  | some s =>
    match pd_to_datetime s with
    | none => (none, some ("Unparseable date value: " ++ pyRepr s))
    | some parsed => (some parsed.normalize, none)

/-- Mixed indicator cell fed to `truthy_issue_flag`: a Python bool, `None`/`NaN`,
or an arbitrary scalar whose `str()` is the given string. -/
inductive FlagVal where
  | bool (b : Bool)
  | none
  | str (s : String)
deriving DecidableEq, Repr

/-- Model of `truthy_issue_flag` from `ops_dashboard/normalization.py`. -/
def truthy_issue_flag (value : FlagVal) : Bool :=
  match value with
  | .bool b => b
  | .none => false
  | .str s =>
    let normalized := String.mk (pyLower (pyStrip s.toList))
    normalized = "yes" || normalized = "y" || normalized = "true" ||
    normalized = "t" || normalized = "1"

/-- Production-side input row, after column coalescing (`_coalesce_column`):
the claims under verification do not concern the alias lists, so the embedding
starts from the coalesced logical fields of `_prepare_production`. -/
structure ProdInput where
  raw_lot_id : Option String
  production_line : Option String
  primary_issue : Option String
  line_issue_raw : FlagVal
  production_date_raw : Option String
  provided_normalized_lot_id : Option String
  source_file : String
  source_sheet : String
  source_row : Nat
deriving DecidableEq, Repr

/-- Shipping-side input row, after column coalescing. -/
structure ShipInput where
  raw_lot_id : Option String
  ship_status_raw : Option String
  ship_date_raw : Option String
  provided_normalized_lot_id : Option String
  source_file : String
  source_sheet : String
  source_row : Nat
deriving DecidableEq, Repr

/-- Row of the prepared production table produced by `_prepare_production`. -/
structure ProdPrepared where
  raw_lot_id : Option String
  production_line : Option String
  primary_issue : Option String
  line_issue : Bool
  production_date : Option Timestamp
  date_error_reason : Option String
  canonical_lot_id : Option String
  lot_normalization_status : String
  lot_error_reason : Option String
  needs_review : Bool
  review_reason : String
  provided_normalized_lot_id : Option String
  source_file : String
  source_sheet : String
  source_row : Nat
deriving DecidableEq, Repr

/-- Row of the prepared shipping table produced by `_prepare_shipping`. -/
structure ShipPrepared where
  raw_lot_id : Option String
  ship_status : String
  ship_date : Option Timestamp
  date_error_reason : Option String
  canonical_lot_id : Option String
  lot_normalization_status : String
  lot_error_reason : Option String
  needs_review : Bool
  review_reason : String
  provided_normalized_lot_id : Option String
  source_file : String
  source_sheet : String
  source_row : Nat
deriving DecidableEq, Repr

/-- The fixed ambiguity message written on a provided-vs-computed lot mismatch. -/
def ambiguityMsg : String :=
  "Ambiguous lot match: provided normalized_lot_id conflicts with raw lot normalization"

/-- Model of `provided = out["provided_normalized_lot_id"].map(lambda x:
normalize_lot_id(x).canonical_lot_id if pd.notna(x) else None)` for one cell. -/
def providedCanonical (o : Option String) : Option String :=
  match o with
  | some v => (normalize_lot_id (some v)).canonical_lot_id
  | none => none

/-- Row-wise body of `_prepare_production`: date parsing, lot normalization,
review flags, and the provided-normalized-lot mismatch override. -/
def prepareProductionRow (r : ProdInput) : ProdPrepared :=
  let pd := parse_mixed_date r.production_date_raw
  let n := normalize_lot_id r.raw_lot_id
  let needs0 : Bool := pd.2.isSome || n.status ≠ "ok"
  let reason0 := pd.2.getD "" ++ n.reason.getD ""
  let provided := providedCanonical r.provided_normalized_lot_id
  let mismatch : Bool :=
    match provided, n.canonical_lot_id with
    | some p, some c => p ≠ c
    | _, _ => false
  { raw_lot_id := r.raw_lot_id
    production_line := r.production_line
    primary_issue := r.primary_issue
    line_issue := truthy_issue_flag r.line_issue_raw
    production_date := pd.1
    date_error_reason := pd.2
    canonical_lot_id := n.canonical_lot_id
    lot_normalization_status := n.status
    lot_error_reason := n.reason
    needs_review := needs0 || mismatch
    review_reason := if mismatch then ambiguityMsg else reason0
    provided_normalized_lot_id := r.provided_normalized_lot_id
    source_file := r.source_file
    source_sheet := r.source_sheet
    source_row := r.source_row }

/-- Model of `_prepare_production` from `ops_dashboard/consolidation.py`. -/
def _prepare_production (df : List ProdInput) : List ProdPrepared :=
  df.map prepareProductionRow

/-- Row-wise body of `_prepare_shipping` (`ship_status` defaults to `"On Hold"`
via `fillna`). -/
def prepareShippingRow (r : ShipInput) : ShipPrepared :=
  let pd := parse_mixed_date r.ship_date_raw
  let n := normalize_lot_id r.raw_lot_id
  let needs0 : Bool := pd.2.isSome || n.status ≠ "ok"
  let reason0 := pd.2.getD "" ++ n.reason.getD ""
  let provided := providedCanonical r.provided_normalized_lot_id
  let mismatch : Bool :=
    match provided, n.canonical_lot_id with
    | some p, some c => p ≠ c
    | _, _ => false
  { raw_lot_id := r.raw_lot_id
    ship_status := r.ship_status_raw.getD "On Hold"
    ship_date := pd.1
    date_error_reason := pd.2
    canonical_lot_id := n.canonical_lot_id
    lot_normalization_status := n.status
    lot_error_reason := n.reason
    needs_review := needs0 || mismatch
    review_reason := if mismatch then ambiguityMsg else reason0
    provided_normalized_lot_id := r.provided_normalized_lot_id
    source_file := r.source_file
    source_sheet := r.source_sheet
    source_row := r.source_row }

/-- Model of `_prepare_shipping` from `ops_dashboard/consolidation.py`. -/
def _prepare_shipping (df : List ShipInput) : List ShipPrepared :=
  df.map prepareShippingRow

/-- Worker for `dropDupFirstBy`: `seen` is the set of keys already emitted. -/
def dropDupFirstByAux {α β : Type} (k : α → β) [DecidableEq β] (seen : List β) :
    List α → List α
  | [] => []
  | x :: xs =>
    if k x ∈ seen then dropDupFirstByAux k seen xs
    else x :: dropDupFirstByAux k (k x :: seen) xs

/-- Keep the first occurrence of each key, preserving order: model of pandas
`drop_duplicates(..., keep="first")` as well as of building a Python `set`
from a traversal. -/
def dropDupFirstBy {α β : Type} (k : α → β) [DecidableEq β] (xs : List α) : List α :=
  dropDupFirstByAux k [] xs

/-- Distinct elements of a list, first occurrences kept in order. -/
def dedupFirst {α : Type} [DecidableEq α] (xs : List α) : List α :=
  dropDupFirstBy id xs

/-- Lexicographic order on character lists by code point, the order Python
uses to compare and sort strings. -/
def listLexLe : List Char → List Char → Bool
  | [], _ => true
  | _ :: _, [] => false
  | a :: as, b :: bs => decide (a.toNat < b.toNat) || (a = b && listLexLe as bs)

/-- Python string order, at-most. -/
def strLeB (a b : String) : Bool :=
  listLexLe a.toList b.toList

/-- Python string order, strictly-below. -/
def strLtB (a b : String) : Bool :=
  strLeB a b && !(decide (a = b))

/-- The string order as a relation, for `List.insertionSort`. -/
def strRel (a b : String) : Prop :=
  strLeB a b = true

instance : DecidableRel strRel :=
  fun a b => inferInstanceAs (Decidable (strLeB a b = true))

/-- Model of Python `sorted(set(xs))` for strings. -/
def uniqueSorted (xs : List String) : List String :=
  List.insertionSort strRel (dedupFirst xs)

/-- Descending order (largest first) on optional ship dates, with absent dates
ranking last: `a` sorts at-or-before `b` under
`sort_values("ship_date", ascending=False)` with `na_position="last"`. -/
def dateDescLe (a b : Option Timestamp) : Bool :=
  match a, b with
  | some x, some y => y.key ≤ x.key
  | some _, none => true
  | none, some _ => false
  | none, none => true

/-- Equality under the descending-date order. -/
def dateDescEq (a b : Option Timestamp) : Bool :=
  dateDescLe a b && dateDescLe b a

/-- Strictly-before under the descending-date order. -/
def dateDescLt (a b : Option Timestamp) : Bool :=
  dateDescLe a b && !dateDescLe b a

/-- Lot key of an index-annotated shipping row (all rows entering the sort have
a canonical lot, so the `""` default is never consulted there). -/
def shipKeyLot (p : Nat × ShipPrepared) : String :=
  p.2.canonical_lot_id.getD ""

/-- Sort order of `valid.sort_values(["canonical_lot_id", "ship_date"],
ascending=[True, False])`.  A pandas multi-column sort is a stable
lexicographic sort, so it coincides with sorting by the lexicographic key
(lot ascending, ship date descending with `NaT` last, original position
ascending); the original position is the first component of the pair. -/
def shipLeB (a b : Nat × ShipPrepared) : Bool :=
  strLtB (shipKeyLot a) (shipKeyLot b) ||
    (decide (shipKeyLot a = shipKeyLot b) &&
      (dateDescLt a.2.ship_date b.2.ship_date ||
        (dateDescEq a.2.ship_date b.2.ship_date && decide (a.1 ≤ b.1))))

/-- The sort order as a relation, for `List.insertionSort`. -/
def shipRel (a b : Nat × ShipPrepared) : Prop :=
  shipLeB a b = true

instance : DecidableRel shipRel :=
  fun a b => inferInstanceAs (Decidable (shipLeB a b = true))

/-- Model of `_latest_shipping_by_lot` from `ops_dashboard/consolidation.py`:
filter rows with a canonical lot, sort by (lot asc, ship date desc, `NaT` last),
keep the first row of each lot.  Rows are paired with their original position,
mirroring the DataFrame index that pandas preserves. -/
def _latest_shipping_by_lot (shipping : List ShipPrepared) : List (Nat × ShipPrepared) :=
  let valid := shipping.enum.filter (fun p => p.2.canonical_lot_id.isSome)
  let sorted := List.insertionSort shipRel valid
  dropDupFirstBy (fun p => p.2.canonical_lot_id) sorted

/-- Conflict record emitted by `_detect_conflicts`. -/
structure ConflictRecord where
  canonical_lot_id : String
  conflict_production_lines : List String
  conflict_ship_statuses : List String
  production_sources : List (String × String × Nat)
  shipping_sources : List (String × String × Nat)
deriving DecidableEq, Repr

/-- Source-reference triple of a prepared production row. -/
def prodSourceOf (r : ProdPrepared) : String × String × Nat :=
  (r.source_file, r.source_sheet, r.source_row)

/-- Source-reference triple of a prepared shipping row. -/
def shipSourceOf (r : ShipPrepared) : String × String × Nat :=
  (r.source_file, r.source_sheet, r.source_row)

/-- Error raised by selecting the source columns from the column-less
`pd.DataFrame()` placeholder used when a lot has no rows on one side. -/
def keyErrorMsg : String :=
  "KeyError: [source_file, source_sheet, source_row] not in columns"

/-- Per-lot loop of `_detect_conflicts`.  For a conflicted lot the record dict
selects `[["source_file", "source_sheet", "source_row"]]` first from the
production rows and then from the shipping rows; if that side's group is the
empty `pd.DataFrame()` placeholder (no columns), Python raises `KeyError`,
modelled as `Except.error`. -/
def detectLoop (prodValid : List ProdPrepared) (shipValid : List ShipPrepared) :
    List String → Except String (List ConflictRecord)
  | [] => .ok []
  | l :: rest =>
    let prod_rows := prodValid.filter (fun r => r.canonical_lot_id = some l)
    let ship_rows := shipValid.filter (fun r => r.canonical_lot_id = some l)
    let prod_lines := dedupFirst (prod_rows.filterMap (fun r => r.production_line))
    let ship_statuses := dedupFirst (ship_rows.map (fun r => r.ship_status))
    if prod_lines.length > 1 ∨ ship_statuses.length > 1 then
      if prod_rows.isEmpty then .error keyErrorMsg
      else if ship_rows.isEmpty then .error keyErrorMsg
      else
        match detectLoop prodValid shipValid rest with
        | .ok recs =>
          .ok ({ canonical_lot_id := l
                 conflict_production_lines := uniqueSorted prod_lines
                 conflict_ship_statuses := uniqueSorted ship_statuses
                 production_sources := dedupFirst (prod_rows.map prodSourceOf)
                 shipping_sources := dedupFirst (ship_rows.map shipSourceOf) } :: recs)
        | .error e => .error e
    else detectLoop prodValid shipValid rest

/-- Model of `_detect_conflicts` from `ops_dashboard/consolidation.py`: group
all prepared rows (each side separately) by canonical lot, and emit a record
for each lot with more than one distinct non-null production line or more than
one distinct ship status.  Iterates lots in `sorted(set(...) | set(...))`
order, as the Python does. -/
def _detect_conflicts (production : List ProdPrepared) (shipping : List ShipPrepared) :
    Except String (List ConflictRecord) :=
  let prodValid := production.filter (fun r => r.canonical_lot_id.isSome)
  let shipValid := shipping.filter (fun r => r.canonical_lot_id.isSome)
  let lot_ids := uniqueSorted
    (prodValid.filterMap (fun r => r.canonical_lot_id) ++
      shipValid.filterMap (fun r => r.canonical_lot_id))
  detectLoop prodValid shipValid lot_ids

/-- Row of the consolidated table.  `prod` carries the production-side columns
as they stood at the merge; the finalized `needs_review` / `review_reason`
columns (which overwrite the production values in the real frame) live at the
top level.  `raw_lot_aliases = none` models the `raw_lot_aliases` column being
absent from the frame. -/
structure ConsolidatedRow where
  prod : ProdPrepared
  ship_status : Option String
  ship_date : Option Timestamp
  shipping_source_file : Option String
  shipping_source_sheet : Option String
  shipping_source_row : Option Nat
  shipping_raw_lot_id : Option String
  shipping_match_status : String
  needs_review : Bool
  review_reason : String
  is_problematic_but_shipped : Bool
  has_conflict : Bool
  raw_lot_aliases : Option (List String)
deriving DecidableEq, Repr

/-- Left-join of one production row against the latest-shipping selection,
followed by the column-wise finalization steps of `consolidate_logs`:
`shipping_match_status` from `ship_status.notna()` (never `NaN` on matched rows
because `_prepare_shipping` fills it), `needs_review` OR'd with unmatched, the
`review_reason` default applied wherever the current reason is empty, and
`is_problematic_but_shipped`. -/
def mergeRow (latest : List (Nat × ShipPrepared)) (p : ProdPrepared) : ConsolidatedRow :=
  let m : Option ShipPrepared :=
    match p.canonical_lot_id with
    | none => none
    | some l => (latest.find? (fun q => q.2.canonical_lot_id = some l)).map Prod.snd
  let ship_status := m.map (fun s => s.ship_status)
  let sms := match ship_status with | some _ => "matched" | none => "unmatched"
  { prod := p
    ship_status := ship_status
    ship_date := m.bind (fun s => s.ship_date)
    shipping_source_file := m.map (fun s => s.source_file)
    shipping_source_sheet := m.map (fun s => s.source_sheet)
    shipping_source_row := m.map (fun s => s.source_row)
    shipping_raw_lot_id := m.bind (fun s => s.raw_lot_id)
    shipping_match_status := sms
    needs_review := p.needs_review || sms = "unmatched"
    review_reason :=
      if p.review_reason.length > 0 then p.review_reason else "No matching shipping lot found"
    is_problematic_but_shipped :=
      p.line_issue &&
        (match m with
         | some s => s.ship_status = "Shipped" || s.ship_status = "Partial"
         | none => false)
    has_conflict := false
    raw_lot_aliases := none }

/-- Alias evidence for one canonical lot: every raw lot string observed for it
across both prepared tables, as `sorted(set(...))`.  This is the per-lot view
of the `alias_lookup` dictionary built in `consolidate_logs` (a row's
`raw_lot_id` is necessarily a string when its canonical lot resolved, so
`str()` is the identity there; `alias_lookup.get` on an absent canonical lot
yields the empty set). -/
def aliasFor (production : List ProdPrepared) (shipping : List ShipPrepared)
    (lot : Option String) : List String :=
  match lot with
  | none => []
  | some l =>
    uniqueSorted
      ((production.filter (fun r => r.canonical_lot_id = some l)).map
          (fun r => r.raw_lot_id.getD "None") ++
        (shipping.filter (fun r => r.canonical_lot_id = some l)).map
          (fun r => r.raw_lot_id.getD "None"))

/-- Output object of `consolidate_logs` (`ConsolidationResult` dataclass). -/
structure ConsolidationResult where
  production : List ProdPrepared
  shipping : List ShipPrepared
  consolidated : List ConsolidatedRow
  flagged_rows : List ConsolidatedRow
  conflict_rows : List ConflictRecord
deriving DecidableEq, Repr

/-- Model of `consolidate_logs` from `ops_dashboard/consolidation.py`.
The stages follow the Python statement by statement: prepare both tables,
select latest shipping per lot, left-join and finalize columns, detect
conflicts (which can raise, hence `Except`), mark `has_conflict`, take the
`flagged_rows` copy, drop flagged rows unless `include_flagged`, and only then
attach the `raw_lot_aliases` column (so the earlier `flagged_rows` copy never
receives it). -/
def consolidate_logs (production_df : List ProdInput) (shipping_df : List ShipInput)
    (include_flagged : Bool) : Except String ConsolidationResult :=
  let production := _prepare_production production_df
  let shipping := _prepare_shipping shipping_df
  let shipping_latest := _latest_shipping_by_lot shipping
  let merged := production.map (mergeRow shipping_latest)
  match _detect_conflicts production shipping with
  | .error e => .error e
  | .ok conflict_rows =>
    let conflict_lots := conflict_rows.map (fun c => c.canonical_lot_id)
    let consolidated1 := merged.map (fun r =>
      { r with has_conflict :=
          match r.prod.canonical_lot_id with
          | some l => conflict_lots.contains l
          | none => false })
    let flagged_rows := consolidated1.filter (fun r => r.needs_review)
    let consolidated2 :=
      if include_flagged then consolidated1
      else consolidated1.filter (fun r => !r.needs_review)
    let consolidated3 := consolidated2.map (fun r =>
      { r with raw_lot_aliases := some (aliasFor production shipping r.prod.canonical_lot_id) })
    .ok { production := production
          shipping := shipping
          consolidated := consolidated3
          flagged_rows := flagged_rows
          conflict_rows := conflict_rows }

/-- Day number of a proleptic-Gregorian date (days since 0000-03-01), for
years from 1 on; used to model `pd.Timestamp` day arithmetic. -/
def daysFromCivil (y m d : Nat) : Nat :=
  let y1 := if m ≤ 2 then y - 1 else y
  let era := y1 / 400
  let yoe := y1 % 400
  let mp := (m + 9) % 12
  let doy := (153 * mp + 2) / 5 + d - 1
  let doe := yoe * 365 + yoe / 4 - yoe / 100 + doy
  era * 146097 + doe

/-- Inverse of `daysFromCivil`: the (year, month, day) of a day number. -/
def civilFromDays (z : Nat) : Nat × Nat × Nat :=
  let era := z / 146097
  let doe := z % 146097
  let yoe := (doe - doe / 1460 + doe / 36524 - doe / 146096) / 365
  let y1 := yoe + era * 400
  let doy := doe - (365 * yoe + yoe / 4 - yoe / 100)
  let mp := (5 * doy + 2) / 153
  let d := doy - (153 * mp + 2) / 5 + 1
  let m := if mp < 10 then mp + 3 else mp - 9
  (if m ≤ 2 then y1 + 1 else y1, m, d)

/-- Day-granularity timestamp from a day number. -/
def tsOfDayNumber (z : Nat) : Timestamp :=
  let c := civilFromDays z
  ⟨c.1, c.2.1, c.2.2, 0, 0, 0⟩

/-- Weekday with Monday = 0 (model of `pd.Timestamp.weekday()`). -/
def weekdayOf (z : Nat) : Nat :=
  (z + 2) % 7

/-- Model of `week_bounds` from `ops_dashboard/reporting.py`: the Monday and
Sunday (inclusive) of the calendar week containing the anchor date. -/
def week_bounds (anchor_date : Timestamp) : Timestamp × Timestamp :=
  let n := anchor_date.normalize
  let z := daysFromCivil n.year n.month n.day
  let start := z - weekdayOf z
  (tsOfDayNumber start, tsOfDayNumber (start + 6))

/-- Is the (optional) production date inside the inclusive window?  Comparisons
against `NaT` are false, as in pandas. -/
def inWindow (d : Option Timestamp) (s e : Timestamp) : Bool :=
  match d with
  | some t => s.key ≤ t.key && t.key ≤ e.key
  | none => false

/-- Row of the weekly ranking table (one per production line group). -/
structure RankingRow where
  production_line : Option String
  issue_count : Nat
  total_rows : Nat
  unique_lots : Nat
deriving DecidableEq, Repr

/-- Row of the weekly trending table (one per issue category). -/
structure TrendRow where
  issue_category : String
  current_count : Nat
  previous_count : Nat
  delta : Int
  direction : String
deriving DecidableEq, Repr

/-- Output object of `weekly_summary` (`WeeklySummaryResult` dataclass). -/
structure WeeklySummaryResult where
  week_start : Timestamp
  week_end : Timestamp
  ranking : List RankingRow
  trending : List TrendRow
deriving DecidableEq, Repr

/-- Ascending order on optional line names with `NaN` last, as in
`sort_values(..., "production_line", ascending=True)` with `na_position="last"`. -/
def lineAscLe (a b : Option String) : Bool :=
  match a, b with
  | some x, some y => strLeB x y
  | some _, none => true
  | none, some _ => false
  | none, none => true

/-- Sort order of the ranking table: issue count descending, total rows
descending, line name ascending.  Every group has a distinct line name, so
this order is strict on the grouped rows and the sorted result is unique. -/
def rankLeB (a b : RankingRow) : Bool :=
  decide (b.issue_count < a.issue_count) ||
    (decide (a.issue_count = b.issue_count) &&
      (decide (b.total_rows < a.total_rows) ||
        (decide (a.total_rows = b.total_rows) && lineAscLe a.production_line b.production_line)))

/-- The ranking sort order as a relation. -/
def rankRel (a b : RankingRow) : Prop :=
  rankLeB a b = true

instance : DecidableRel rankRel :=
  fun a b => inferInstanceAs (Decidable (rankLeB a b = true))

/-- Sort order of the trending table: current count descending, delta
descending, category ascending. -/
def trendLeB (a b : TrendRow) : Bool :=
  decide (b.current_count < a.current_count) ||
    (decide (a.current_count = b.current_count) &&
      (decide (b.delta < a.delta) ||
        (decide (a.delta = b.delta) && strLeB a.issue_category b.issue_category)))

/-- The trending sort order as a relation. -/
def trendRel (a b : TrendRow) : Prop :=
  trendLeB a b = true

instance : DecidableRel trendRel :=
  fun a b => inferInstanceAs (Decidable (trendLeB a b = true))

/-- Issue category of a row with the `fillna("Unspecified")` substitution used
by the trending computation. -/
def trendCatOf (r : ConsolidatedRow) : String :=
  r.prod.primary_issue.getD "Unspecified"

/-- The current-week slice of the consolidated table used by `weekly_summary`. -/
def currentWeekRows (consolidated : List ConsolidatedRow) (anchor : Timestamp) :
    List ConsolidatedRow :=
  consolidated.filter (fun r => inWindow r.prod.production_date (week_bounds anchor).1 (week_bounds anchor).2)

/-- One group row of the ranking aggregation of `weekly_summary`:
`current.groupby("production_line", dropna=False)` — so rows with a null line
form their own group — aggregated to issue count (sum of the boolean
`line_issue`), group size, and `nunique` of `canonical_lot_id` (which ignores
nulls). -/
def rankGroupRow (current : List ConsolidatedRow) (l : Option String) : RankingRow :=
  let g := current.filter (fun r => r.prod.production_line = l)
  { production_line := l
    issue_count := g.countP (fun r => r.prod.line_issue)
    total_rows := g.length
    unique_lots := (dedupFirst (g.filterMap (fun r => r.prod.canonical_lot_id))).length }

/-- The grouped-then-sorted weekly line ranking. -/
def rankingOf (current : List ConsolidatedRow) : List RankingRow :=
  let lines := dedupFirst (current.map (fun r => r.prod.production_line))
  List.insertionSort rankRel (lines.map (rankGroupRow current))

/-- The trending aggregation of `weekly_summary` for given current/previous
row sets: per-category issue-row counts in each window (absent category mapped
to "Unspecified", missing group counts defaulting to 0), delta and direction,
sorted. -/
def trendingOf (current previous : List ConsolidatedRow) : List TrendRow :=
  let curI := current.filter (fun r => r.prod.line_issue)
  let prevI := previous.filter (fun r => r.prod.line_issue)
  let cats := uniqueSorted (curI.map trendCatOf ++ prevI.map trendCatOf)
  let rows := cats.map (fun c =>
    let cc := (curI.filter (fun r => trendCatOf r = c)).length
    let pc := (prevI.filter (fun r => trendCatOf r = c)).length
    let delta : Int := (cc : Int) - (pc : Int)
    { issue_category := c
      current_count := cc
      previous_count := pc
      delta := delta
      direction := if delta > 0 then "up" else if delta < 0 then "down" else "flat" })
  List.insertionSort trendRel rows

/-- Model of `ReportingService.weekly_summary` from `ops_dashboard/reporting.py`
(`comparison_period_days` is the config knob, default 7). -/
def weekly_summary (comparison_period_days : Nat) (consolidated : List ConsolidatedRow)
    (anchor_date : Timestamp) : WeeklySummaryResult :=
  let wb := week_bounds anchor_date
  let ws := wb.1
  let we := wb.2
  let zs := daysFromCivil ws.year ws.month ws.day
  let ze := daysFromCivil we.year we.month we.day
  let prev_start := tsOfDayNumber (zs - comparison_period_days)
  let prev_end := tsOfDayNumber (ze - comparison_period_days)
  let current := consolidated.filter (fun r => inWindow r.prod.production_date ws we)
  let previous := consolidated.filter (fun r => inWindow r.prod.production_date prev_start prev_end)
  { week_start := ws
    week_end := we
    ranking := rankingOf current
    trending := trendingOf current previous }

/-! ## Helper lemmas -/

/-- The canonical id of a normalization result is present exactly in the `"ok"` branch. -/
theorem normalize_ok_iff (v : Option String) :
    (normalize_lot_id v).canonical_lot_id.isSome = true ↔
      (normalize_lot_id v).status = "ok" := by
  cases v with
  | none => simp [normalize_lot_id]
  | some raw =>
    simp only [normalize_lot_id]
    split
    · exact iff_of_false (by simp) (by simp)
    · split
      · exact iff_of_false (by simp) (by simp)
      · simp

/-- A string prefixed by `"Unparseable date value: "` is never empty. -/
theorem unparseable_ne_empty (t : String) : "Unparseable date value: " ++ t ≠ "" := by
  intro h
  have h2 := congrArg String.length h
  simp [String.length_append] at h2
  exact absurd h2.1 (by decide)

/-! ## C8 -/

/-- C8: for every result of `normalize_lot_id` and every row of both prepared
tables, the canonical lot id is present if and only if the lot normalization
status is `"ok"`. -/
theorem claim8_canonical_iff_ok :
    (∀ v, ((normalize_lot_id v).canonical_lot_id.isSome = true ↔
            (normalize_lot_id v).status = "ok"))
    ∧ (∀ rows, ∀ r ∈ _prepare_production rows,
        (r.canonical_lot_id.isSome = true ↔ r.lot_normalization_status = "ok"))
    ∧ (∀ rows, ∀ r ∈ _prepare_shipping rows,
        (r.canonical_lot_id.isSome = true ↔ r.lot_normalization_status = "ok")) := by
  refine ⟨normalize_ok_iff, ?_, ?_⟩
  · intro rows r hr
    rw [_prepare_production, List.mem_map] at hr
    obtain ⟨x, -, rfl⟩ := hr
    simpa [prepareProductionRow] using normalize_ok_iff x.raw_lot_id
  · intro rows r hr
    rw [_prepare_shipping, List.mem_map] at hr
    obtain ⟨x, -, rfl⟩ := hr
    simpa [prepareShippingRow] using normalize_ok_iff x.raw_lot_id

/-- Concrete production input used by the C8 witness. -/
def c8row : ProdInput :=
  ⟨some "LOT-20260202-001", some "Line 1", some "Tool wear", .str "Yes",
    some "2026-02-02", none, "prod.xlsx", "Production", 2⟩

/-- Witness for C8 at a concrete prepared production row. -/
theorem claim8_canonical_iff_ok_witness :
    (prepareProductionRow c8row).canonical_lot_id.isSome = true ↔
      (prepareProductionRow c8row).lot_normalization_status = "ok" :=
  claim8_canonical_iff_ok.2.1 [c8row] (prepareProductionRow c8row)
    (by simp [_prepare_production])

/-! ## C2 -/

/-- C2 counterexample: the empty string is a `str`, not `None`/`NaN`, so it
falls through the empty-input check of `parse_mixed_date` and is reported as
unparseable (with the `repr` of the empty string in the reason), not as
`"Date is empty"` as the claim requires. -/
theorem claim2_counterexample :
    parse_mixed_date (some "") = (none, some ("Unparseable date value: " ++ pyRepr ""))
    ∧ (parse_mixed_date (some "")).2 ≠ some "Date is empty" :=
  ⟨rfl, by decide⟩

/-- C2 amended: `parse_mixed_date` always returns a pair (it is total); a date
is returned iff no reason is; `None`/`NaN` input yields `"Date is empty"`; any
string the date parser rejects — including the empty string — yields the
non-empty reason `"Unparseable date value: <repr>"`; a parsed date is truncated
to day granularity. -/
theorem claim2_amended :
    (∀ v, ((parse_mixed_date v).1.isSome = true ↔ (parse_mixed_date v).2 = none))
    ∧ parse_mixed_date none = (none, some "Date is empty")
    ∧ (∀ s, pd_to_datetime s = none →
        parse_mixed_date (some s) = (none, some ("Unparseable date value: " ++ pyRepr s))
        ∧ "Unparseable date value: " ++ pyRepr s ≠ "")
    ∧ (∀ s t, (parse_mixed_date (some s)).1 = some t →
        t.hour = 0 ∧ t.minute = 0 ∧ t.second = 0) := by
  refine ⟨?_, rfl, ?_, ?_⟩
  · intro v
    cases v with
    | none => simp [parse_mixed_date]
    | some s =>
      rcases h : pd_to_datetime s with - | u <;> simp [parse_mixed_date, h]
  · intro s h
    exact ⟨by simp [parse_mixed_date, h], unparseable_ne_empty _⟩
  · intro s t h
    rcases hq : pd_to_datetime s with - | u <;> simp [parse_mixed_date, hq] at h
    rcases h with ⟨-, rfl⟩
    simp [Timestamp.normalize]

/-- Witness for C2 at the concrete unparseable input `"bad-date"`. -/
theorem claim2_amended_witness :
    parse_mixed_date (some "bad-date") =
      (none, some ("Unparseable date value: " ++ pyRepr "bad-date")) :=
  (claim2_amended.2.2.1 "bad-date" (by rfl)).1

/-! ## C1 -/

/-- C1 counterexample: the compacted form of `"XLOT20260101001"` is
`XLOT20260101001` itself, which only *contains* `LOT` + 8 digits + 3 digits as
a proper substring; the claim requires such inputs to be rejected with
`needs_review`, но `normalize_lot_id` accepts it with status `"ok"` because
`LOT_PATTERN.search` is unanchored. -/
theorem claim1_counterexample :
    normalize_lot_id (some "XLOT20260101001") =
      ⟨some "LOT-20260101-001", "ok", none⟩
    ∧ compactOf "XLOT20260101001" = "XLOT20260101001".toList :=
  ⟨rfl, rfl⟩

/-! ## C7 -/

/-- C7: in both row-preparation variants, when the source-supplied normalized
lot value independently normalizes to a canonical id that is present and
differs from the canonical id computed from the raw lot id, the prepared row is
forced to `needs_review = true` and its `review_reason` is overwritten with the
fixed ambiguity message (not concatenated with any earlier date/lot reason). -/
theorem claim7_ambiguity_overrides :
    (∀ (x : ProdInput) (p c : String),
        providedCanonical x.provided_normalized_lot_id = some p →
        (normalize_lot_id x.raw_lot_id).canonical_lot_id = some c →
        p ≠ c →
        (prepareProductionRow x).needs_review = true ∧
          (prepareProductionRow x).review_reason = ambiguityMsg)
    ∧ (∀ (x : ShipInput) (p c : String),
        providedCanonical x.provided_normalized_lot_id = some p →
        (normalize_lot_id x.raw_lot_id).canonical_lot_id = some c →
        p ≠ c →
        (prepareShippingRow x).needs_review = true ∧
          (prepareShippingRow x).review_reason = ambiguityMsg) := by
  constructor
  · intro x p c h1 h2 h3
    simp [prepareProductionRow, h1, h2, h3]
  · intro x p c h1 h2 h3
    simp [prepareShippingRow, h1, h2, h3]

/-- Concrete production input used by the C7 witness: an unparseable date (so a
date-error reason is accumulated first) plus a conflicting provided normalized
lot id. -/
def c7row : ProdInput :=
  ⟨some "LOT-20260101-001", some "Line 1", none, .str "No",
    some "bad-date", some "LOT-20260101-002", "prod.xlsx", "Production", 3⟩

/-- Witness for C7: the ambiguity message overwrites the date-error reason. -/
theorem claim7_ambiguity_overrides_witness :
    (prepareProductionRow c7row).needs_review = true ∧
      (prepareProductionRow c7row).review_reason = ambiguityMsg :=
  claim7_ambiguity_overrides.1 c7row "LOT-20260101-002" "LOT-20260101-001"
    (by rfl) (by rfl) (by decide)

/-! ## C5 -/

/-- Concrete shipping inputs used by the C5 failing input: one canonical lot
with two distinct ship statuses and no production rows at all. -/
def c5shipA : ShipInput :=
  ⟨some "LOT-20260101-001", some "On Hold", some "2026-01-02", none,
    "ship.xlsx", "Shipping", 2⟩

/-- Second shipping row of the C5 failing input. -/
def c5shipB : ShipInput :=
  ⟨some "LOT-20260101-001", some "Shipped", some "2026-01-05", none,
    "ship.xlsx", "Shipping", 3⟩

/-- C5: the claim says a lot whose shipping rows span two distinct statuses
yields exactly one conflict record carrying the statuses and source triples;
on this input (the lot has no production rows) the Python instead raises
`KeyError`, because the placeholder `pd.DataFrame()` for the missing
production group has no columns when the record's source columns are selected.
The model evaluates to the corresponding error. -/
theorem claim5_conflict_keyerror :
    _detect_conflicts (_prepare_production []) (_prepare_shipping [c5shipA, c5shipB]) =
      .error keyErrorMsg := by
  rfl

/-- A non-empty string has positive length. -/
theorem length_pos_of_ne_empty (s : String) (h : s ≠ "") : 0 < s.length := by
  rcases s with ⟨l⟩
  cases l with
  | nil => simp at h
  | cons a t => simp [String.length]

/-! ## C3 -/

/-- Concrete clean production input for the C3 counterexample. -/
def c3prod : ProdInput :=
  ⟨some "LOT-20260202-001", some "Line 1", some "Tool wear", .str "Yes",
    some "2026-02-02", none, "prod.xlsx", "Production", 2⟩

/-- Concrete matching shipping input for the C3 counterexample. -/
def c3ship : ShipInput :=
  ⟨some "LOT-20260202-001", some "Shipped", some "2026-02-03", none,
    "ship.xlsx", "Shipping", 2⟩

/-- C3 counterexample: a clean production row that *is* matched by a shipping
row (its pre-merge review reason is empty) still has its `review_reason`
replaced by the default `"No matching shipping lot found"`, because the
`.where(...)` default is applied to every row with an empty reason, not only
to unmatched rows. -/
theorem claim3_counterexample :
    (prepareProductionRow c3prod).review_reason = ""
    ∧ (consolidate_logs [c3prod] [c3ship] false).toOption.map
        (fun res => res.consolidated.map (fun r => (r.shipping_match_status, r.review_reason)))
      = some [("matched", "No matching shipping lot found")] :=
  ⟨rfl, rfl⟩

/-- No row of the latest-shipping selection joins to this production row. -/
def noLatestMatch (latest : List (Nat × ShipPrepared)) (p : ProdPrepared) : Prop :=
  match p.canonical_lot_id with
  | none => True
  | some l => ∀ q ∈ latest, q.2.canonical_lot_id ≠ some l

instance (latest : List (Nat × ShipPrepared)) (p : ProdPrepared) :
    Decidable (noLatestMatch latest p) := by
  unfold noLatestMatch
  cases p.canonical_lot_id with
  | none => exact isTrue trivial
  | some l => exact inferInstance

/-- C3 amended: in `consolidate_logs`, a production row with no latest-shipping
row for its canonical lot gets `shipping_match_status = "unmatched"` and
`needs_review = true`; and — for every consolidated row, matched or unmatched —
`review_reason` becomes `"No matching shipping lot found"` exactly when the
carried review reason was empty, while a non-empty reason is kept unchanged
(the default does apply to matched rows with an empty reason, contrary to the
original claim's last part). -/
theorem claim3_amended (pdf : List ProdInput) (sdf : List ShipInput) :
    ∀ p ∈ _prepare_production pdf,
      (noLatestMatch (_latest_shipping_by_lot (_prepare_shipping sdf)) p →
        (mergeRow (_latest_shipping_by_lot (_prepare_shipping sdf)) p).shipping_match_status
            = "unmatched"
        ∧ (mergeRow (_latest_shipping_by_lot (_prepare_shipping sdf)) p).needs_review = true)
      ∧ (p.review_reason = "" →
          (mergeRow (_latest_shipping_by_lot (_prepare_shipping sdf)) p).review_reason
            = "No matching shipping lot found")
      ∧ (p.review_reason ≠ "" →
          (mergeRow (_latest_shipping_by_lot (_prepare_shipping sdf)) p).review_reason
            = p.review_reason) := by
  intro p hp
  refine ⟨fun hnm => ?_, fun he => ?_, fun hne => ?_⟩
  · cases hc : p.canonical_lot_id with
    | none => simp [mergeRow, hc]
    | some l =>
      have hfind :
          (_latest_shipping_by_lot (_prepare_shipping sdf)).find?
            (fun q => q.2.canonical_lot_id = some l) = none := by
        apply List.find?_eq_none.mpr
        intro q hq
        simp only [noLatestMatch, hc] at hnm
        simp [hnm q hq]
      simp [mergeRow, hc, hfind]
  · simp [mergeRow, he]
  · have hlen : 0 < p.review_reason.length := length_pos_of_ne_empty _ hne
    simp [mergeRow, hlen]

/-- Concrete unmatched production input for the C3 witness. -/
def c3prodU : ProdInput :=
  ⟨some "LOT-20260505-001", some "Line 2", none, .str "No",
    some "2026-05-05", none, "prod.xlsx", "Production", 4⟩

/-- Witness for C3 (amended): with no shipping rows, the concrete prepared
production row is unmatched, review-flagged, and receives the default reason. -/
theorem claim3_amended_witness :
    (mergeRow (_latest_shipping_by_lot (_prepare_shipping [])) (prepareProductionRow c3prodU)).shipping_match_status
        = "unmatched"
    ∧ (mergeRow (_latest_shipping_by_lot (_prepare_shipping [])) (prepareProductionRow c3prodU)).needs_review = true
    ∧ (mergeRow (_latest_shipping_by_lot (_prepare_shipping [])) (prepareProductionRow c3prodU)).review_reason
        = "No matching shipping lot found" := by
  have h := claim3_amended [c3prodU] [] (prepareProductionRow c3prodU)
    (by simp [_prepare_production])
  exact ⟨(h.1 (by decide)).1, (h.1 (by decide)).2, h.2.1 (by rfl)⟩

/-! ## C4 -/

/-- Concrete production input with a malformed lot id for the C4 counterexample. -/
def c4badprod : ProdInput :=
  ⟨some "BADLOT", some "Line 3", none, .str "No",
    some "2026-02-03", none, "prod.xlsx", "Production", 5⟩

/-- C4 counterexample: the run has one review-flagged row; the `flagged_rows`
output was copied *before* the `raw_lot_aliases` column was attached, so its
row carries no `raw_lot_aliases` at all (`none` models the absent column),
contradicting the claim that the flagged rows also carry the alias set. -/
theorem claim4_counterexample :
    (consolidate_logs [c4badprod] [] false).toOption.map
        (fun res => res.flagged_rows.map (fun r => r.raw_lot_aliases))
      = some [none] :=
  rfl

/-- C4 amended: every row of the `consolidated` output carries
`raw_lot_aliases` equal to the alias set of its canonical lot (every raw lot
string observed for that lot across both prepared tables); the rows routed to
the `flagged_rows` output, having been copied before the alias column is
attached, carry none. -/
theorem claim4_amended (pdf : List ProdInput) (sdf : List ShipInput) (inc : Bool)
    (res : ConsolidationResult) (h : consolidate_logs pdf sdf inc = .ok res) :
    (∀ r ∈ res.consolidated,
        r.raw_lot_aliases = some (aliasFor res.production res.shipping r.prod.canonical_lot_id))
    ∧ (∀ r ∈ res.flagged_rows, r.raw_lot_aliases = none) := by
  simp only [consolidate_logs] at h
  rcases hd : _detect_conflicts (_prepare_production pdf) (_prepare_shipping sdf) with e | cr
  · rw [hd] at h
    cases h
  · rw [hd] at h
    injection h with h
    subst h
    constructor
    · intro r hr
      simp only [List.mem_map] at hr
      obtain ⟨r0, -, rfl⟩ := hr
      rfl
    · intro r hr
      have hr1 := List.mem_of_mem_filter hr
      simp only [List.mem_map] at hr1
      obtain ⟨p, hp, rfl⟩ := hr1
      obtain ⟨x, -, rfl⟩ := hp
      rfl

/-- Concrete result object used by the C4 witness (the fallback branch is
never taken: the run succeeds). -/
def c4res : ConsolidationResult :=
  match consolidate_logs [c3prod] [c3ship] true with
  | .ok r => r
  | .error _ => ⟨[], [], [], [], []⟩

/-- Witness for C4 (amended): the single consolidated row of a concrete run
carries the alias set of its lot. -/
theorem claim4_amended_witness :
    ∃ r, r ∈ c4res.consolidated ∧
      r.raw_lot_aliases = some (aliasFor c4res.production c4res.shipping r.prod.canonical_lot_id) := by
  have h := (claim4_amended [c3prod] [c3ship] true c4res (by rfl)).1
  exact ⟨_, List.mem_cons_self _ _, h _ (List.mem_cons_self _ _)⟩

/-! ## Lemmas about the lot-normalization pipeline -/

/-- A digit character is not `'L'`, not a separator, not whitespace, and is
fixed by uppercasing. -/
theorem isDig_facts (c : Char) (h : isDig c = true) :
    c ≠ 'L' ∧ isSepChar c = false ∧ isPySpace c = false ∧ Char.toUpper c = c := by
  simp only [isDig, Bool.or_eq_true, decide_eq_true_eq] at h
  rcases h with (((((((((rfl | rfl) | rfl) | rfl) | rfl) | rfl) | rfl) | rfl) | rfl) | rfl) <;>
    exact ⟨by decide, by decide, by decide, by decide⟩

/-- `replaceL0T` fixes a list starting with a non-`'L'` character, except on its tail. -/
theorem replaceL0T_cons_ne (c : Char) (cs : List Char) (h : c ≠ 'L') :
    replaceL0T (c :: cs) = c :: replaceL0T cs := by
  match cs with
  | [] => rfl
  | [d] => rfl
  | d :: e :: rest =>
    rw [replaceL0T, if_neg]
    rintro ⟨rfl, -⟩
    exact h rfl

/-- `replaceL0T` is the identity on lists that contain no `'L'`. -/
theorem replaceL0T_noL : ∀ cs : List Char, (∀ c ∈ cs, c ≠ 'L') → replaceL0T cs = cs
  | [] => fun _ => rfl
  | c :: cs => fun h => by
    rw [replaceL0T_cons_ne c cs (h c (by simp)),
      replaceL0T_noL cs (fun x hx => h x (by simp [hx]))]

/-- `replaceL0T` commutes past a leading `LOT`. -/
theorem replaceL0T_LOT (rest : List Char) :
    replaceL0T ('L' :: 'O' :: 'T' :: rest) = 'L' :: 'O' :: 'T' :: replaceL0T rest := by
  match rest with
  | [] => rfl
  | _ :: _ =>
    rw [replaceL0T, if_neg (by rintro ⟨-, h, -⟩; exact absurd h (by decide)),
      replaceL0T_cons_ne 'O' _ (by decide), replaceL0T_cons_ne 'T' _ (by decide)]

/-- `replaceL0T` rewrites a leading `L0T` typo to `LOT`. -/
theorem replaceL0T_L0T (rest : List Char) :
    replaceL0T ('L' :: '0' :: 'T' :: rest) = 'L' :: 'O' :: 'T' :: replaceL0T rest := by
  rw [replaceL0T, if_pos ⟨rfl, rfl, rfl⟩]

/-- `dropWhile` is the identity when no element satisfies the predicate. -/
theorem dropWhile_eq_self_of_all (p : Char → Bool) (cs : List Char)
    (h : ∀ c ∈ cs, p c = false) : cs.dropWhile p = cs := by
  cases cs with
  | nil => rfl
  | cons c rest => rw [List.dropWhile_cons, if_neg (by simp [h c (by simp)])]

/-- `pyStrip` is the identity on whitespace-free lists. -/
theorem pyStrip_eq_self (cs : List Char) (h : ∀ c ∈ cs, isPySpace c = false) :
    pyStrip cs = cs := by
  unfold pyStrip
  rw [dropWhile_eq_self_of_all _ cs h,
    dropWhile_eq_self_of_all _ cs.reverse (fun c hc => h c (List.mem_reverse.mp hc)),
    List.reverse_reverse]

/-- `pyUpper` is the identity when every character is fixed by uppercasing. -/
theorem pyUpper_eq_self (cs : List Char) (h : ∀ c ∈ cs, Char.toUpper c = c) :
    pyUpper cs = cs := by
  unfold pyUpper
  induction cs with
  | nil => rfl
  | cons c rest ih =>
    rw [List.map_cons, h c (by simp), ih (fun x hx => h x (by simp [hx]))]

/-- Restatement of `normalize_lot_id` on a string input through `compactOf`,
in the non-blank case. -/
theorem normalize_some_eq (raw : String) (hne : pyUpper (pyStrip raw.toList) ≠ []) :
    normalize_lot_id (some raw) =
      match lotSearch (structuredOf (compactOf raw)) with
      | none =>
        ⟨none, "needs_review",
          some ("Lot ID does not match expected pattern: " ++ pyRepr raw)⟩
      | some (d8, d3) =>
        ⟨some ("LOT-" ++ String.mk d8 ++ "-" ++ String.mk d3), "ok", none⟩ := by
  simp only [normalize_lot_id, compactOf]
  rw [if_neg hne]

/-- Restatement of `normalize_lot_id` on a blank string input. -/
theorem normalize_some_blank (raw : String) (hbl : pyUpper (pyStrip raw.toList) = []) :
    normalize_lot_id (some raw) = ⟨none, "needs_review", some "Lot ID is blank"⟩ := by
  simp only [normalize_lot_id]
  rw [if_pos hbl]

/-- The `^LOT(\d{8})(\d{3})$` rewrite on an exact compact form. -/
theorem structuredOf_exact (d8 d3 : List Char) (h8 : d8.length = 8) (h3 : d3.length = 3)
    (hd8 : d8.all isDig = true) (hd3 : d3.all isDig = true) :
    structuredOf ('L' :: 'O' :: 'T' :: (d8 ++ d3)) =
      'L' :: 'O' :: 'T' :: '-' :: (d8 ++ '-' :: d3) := by
  simp only [structuredOf]
  rw [if_pos ⟨trivial, trivial, trivial, by simp [h8, h3], by simp [List.all_append, hd8, hd3]⟩,
    List.take_left' h8, List.drop_left' h8]

/-- `LOT_PATTERN` matches the canonical separator form at the head, capturing
the two digit groups. -/
theorem lotMatchAt_canon (d8 d3 : List Char) (h8 : d8.length = 8) (h3 : d3.length = 3)
    (hd8 : d8.all isDig = true) (hd3 : d3.all isDig = true) :
    lotMatchAt ('L' :: 'O' :: 'T' :: '-' :: (d8 ++ '-' :: d3)) = some (d8, d3) := by
  have ht8 : (d8 ++ '-' :: d3).take 8 = d8 := List.take_left' h8
  have hdr : (d8 ++ '-' :: d3).drop 8 = '-' :: d3 := List.drop_left' h8
  have ht3 : d3.take 3 = d3 := h3 ▸ List.take_length d3
  simp only [lotMatchAt, seqSepOpt]
  simp [ht8, hdr, ht3, h8, h3, hd8, hd3]

/-- `lotSearch` succeeds at the head when `lotMatchAt` does. -/
theorem lotSearch_head (cs : List Char) (g : List Char × List Char)
    (h : lotMatchAt cs = some g) : lotSearch cs = some g := by
  cases cs with
  | nil => exact Option.noConfusion h
  | cons c rest => simp [lotSearch, h]

/-- When the compacted form is exactly `LOT` + 8 digits + 3 digits,
`normalize_lot_id` returns the canonical id with status `"ok"`. -/
theorem normalize_of_compact_exact (raw : String) (d8 d3 : List Char)
    (h8 : d8.length = 8) (h3 : d3.length = 3)
    (hd8 : d8.all isDig = true) (hd3 : d3.all isDig = true)
    (hc : compactOf raw = 'L' :: 'O' :: 'T' :: (d8 ++ d3)) :
    normalize_lot_id (some raw) =
      ⟨some ("LOT-" ++ String.mk d8 ++ "-" ++ String.mk d3), "ok", none⟩ := by
  have hne : pyUpper (pyStrip raw.toList) ≠ [] := by
    intro hbl
    rw [compactOf, hbl] at hc
    simp [replaceL0T] at hc
  rw [normalize_some_eq raw hne, hc,
    structuredOf_exact d8 d3 h8 h3 hd8 hd3,
    lotSearch_head _ _ (lotMatchAt_canon d8 d3 h8 h3 hd8 hd3)]

/-- Separator-removal filter is the identity on separator-free lists. -/
theorem filter_notSep_eq (cs : List Char) (h : ∀ c ∈ cs, isSepChar c = false) :
    cs.filter (fun c => !isSepChar c) = cs :=
  List.filter_eq_self.mpr (by intro a ha; simp [h a ha])

/-- Separator-removal filter drops a separator head. -/
theorem filter_notSep_cons_sep (c : Char) (cs : List Char) (h : isSepChar c = true) :
    (c :: cs).filter (fun c => !isSepChar c) = cs.filter (fun c => !isSepChar c) := by
  simp [List.filter_cons, h]

/-- Separator-removal filter keeps a non-separator head. -/
theorem filter_notSep_cons_keep (c : Char) (cs : List Char) (h : isSepChar c = false) :
    (c :: cs).filter (fun c => !isSepChar c) = c :: cs.filter (fun c => !isSepChar c) := by
  simp [List.filter_cons, h]

/-- Strip and uppercase are the identity on already-clean lists. -/
theorem pyNorm_eq_self (cs : List Char)
    (h : ∀ c ∈ cs, isPySpace c = false ∧ Char.toUpper c = c) :
    pyUpper (pyStrip cs) = cs := by
  rw [pyStrip_eq_self _ (fun c hc => (h c hc).1), pyUpper_eq_self _ (fun c hc => (h c hc).2)]

/-- Compacted form of the canonical hyphen-separated id. -/
theorem compactOf_canon (d8 d3 : List Char)
    (hd8 : d8.all isDig = true) (hd3 : d3.all isDig = true) :
    compactOf ("LOT-" ++ String.mk d8 ++ "-" ++ String.mk d3) =
      'L' :: 'O' :: 'T' :: (d8 ++ d3) := by
  have f8 := fun c (hc : c ∈ d8) => isDig_facts c (List.all_eq_true.mp hd8 c hc)
  have f3 := fun c (hc : c ∈ d3) => isDig_facts c (List.all_eq_true.mp hd3 c hc)
  have hlist : ("LOT-" ++ String.mk d8 ++ "-" ++ String.mk d3).toList
      = 'L' :: 'O' :: 'T' :: '-' :: (d8 ++ '-' :: d3) := by
    simp [String.toList, String.data_append]
  rw [compactOf, hlist, pyNorm_eq_self]
  · rw [replaceL0T_LOT, replaceL0T_cons_ne '-' _ (by decide),
      replaceL0T_noL _ (by
        intro c hc
        rcases List.mem_append.mp hc with h | h
        · exact (f8 c h).1
        · rcases List.mem_cons.mp h with rfl | h
          · decide
          · exact (f3 c h).1)]
    rw [filter_notSep_cons_keep _ _ (by decide), filter_notSep_cons_keep _ _ (by decide),
      filter_notSep_cons_keep _ _ (by decide), filter_notSep_cons_sep _ _ (by decide),
      List.filter_append, filter_notSep_eq _ (fun c hc => (f8 c hc).2.1),
      filter_notSep_cons_sep _ _ (by decide), filter_notSep_eq _ (fun c hc => (f3 c hc).2.1)]
  · intro c hc
    rcases List.mem_cons.mp hc with rfl | hc
    · exact ⟨by decide, by decide⟩
    rcases List.mem_cons.mp hc with rfl | hc
    · exact ⟨by decide, by decide⟩
    rcases List.mem_cons.mp hc with rfl | hc
    · exact ⟨by decide, by decide⟩
    rcases List.mem_cons.mp hc with rfl | hc
    · exact ⟨by decide, by decide⟩
    rcases List.mem_append.mp hc with h | h
    · exact ⟨(f8 c h).2.2.1, (f8 c h).2.2.2⟩
    rcases List.mem_cons.mp h with rfl | h
    · exact ⟨by decide, by decide⟩
    · exact ⟨(f3 c h).2.2.1, (f3 c h).2.2.2⟩

/-- Compacted form of the underscore-separated id. -/
theorem compactOf_underscore (d8 d3 : List Char)
    (hd8 : d8.all isDig = true) (hd3 : d3.all isDig = true) :
    compactOf ("LOT_" ++ String.mk d8 ++ "_" ++ String.mk d3) =
      'L' :: 'O' :: 'T' :: (d8 ++ d3) := by
  have f8 := fun c (hc : c ∈ d8) => isDig_facts c (List.all_eq_true.mp hd8 c hc)
  have f3 := fun c (hc : c ∈ d3) => isDig_facts c (List.all_eq_true.mp hd3 c hc)
  have hlist : ("LOT_" ++ String.mk d8 ++ "_" ++ String.mk d3).toList
      = 'L' :: 'O' :: 'T' :: '_' :: (d8 ++ '_' :: d3) := by
    simp [String.toList, String.data_append]
  rw [compactOf, hlist, pyNorm_eq_self]
  · rw [replaceL0T_LOT, replaceL0T_cons_ne '_' _ (by decide),
      replaceL0T_noL _ (by
        intro c hc
        rcases List.mem_append.mp hc with h | h
        · exact (f8 c h).1
        · rcases List.mem_cons.mp h with rfl | h
          · decide
          · exact (f3 c h).1)]
    rw [filter_notSep_cons_keep _ _ (by decide), filter_notSep_cons_keep _ _ (by decide),
      filter_notSep_cons_keep _ _ (by decide), filter_notSep_cons_sep _ _ (by decide),
      List.filter_append, filter_notSep_eq _ (fun c hc => (f8 c hc).2.1),
      filter_notSep_cons_sep _ _ (by decide), filter_notSep_eq _ (fun c hc => (f3 c hc).2.1)]
  · intro c hc
    rcases List.mem_cons.mp hc with rfl | hc
    · exact ⟨by decide, by decide⟩
    rcases List.mem_cons.mp hc with rfl | hc
    · exact ⟨by decide, by decide⟩
    rcases List.mem_cons.mp hc with rfl | hc
    · exact ⟨by decide, by decide⟩
    rcases List.mem_cons.mp hc with rfl | hc
    · exact ⟨by decide, by decide⟩
    rcases List.mem_append.mp hc with h | h
    · exact ⟨(f8 c h).2.2.1, (f8 c h).2.2.2⟩
    rcases List.mem_cons.mp h with rfl | h
    · exact ⟨by decide, by decide⟩
    · exact ⟨(f3 c h).2.2.1, (f3 c h).2.2.2⟩

/-- Compacted form of the separator-free id. -/
theorem compactOf_compactForm (d8 d3 : List Char)
    (hd8 : d8.all isDig = true) (hd3 : d3.all isDig = true) :
    compactOf ("LOT" ++ String.mk d8 ++ String.mk d3) =
      'L' :: 'O' :: 'T' :: (d8 ++ d3) := by
  have f8 := fun c (hc : c ∈ d8) => isDig_facts c (List.all_eq_true.mp hd8 c hc)
  have f3 := fun c (hc : c ∈ d3) => isDig_facts c (List.all_eq_true.mp hd3 c hc)
  have hlist : ("LOT" ++ String.mk d8 ++ String.mk d3).toList
      = 'L' :: 'O' :: 'T' :: (d8 ++ d3) := by
    simp [String.toList, String.data_append]
  rw [compactOf, hlist, pyNorm_eq_self]
  · rw [replaceL0T_LOT,
      replaceL0T_noL _ (by
        intro c hc
        rcases List.mem_append.mp hc with h | h
        · exact (f8 c h).1
        · exact (f3 c h).1)]
    rw [filter_notSep_cons_keep _ _ (by decide), filter_notSep_cons_keep _ _ (by decide),
      filter_notSep_cons_keep _ _ (by decide),
      List.filter_append, filter_notSep_eq _ (fun c hc => (f8 c hc).2.1),
      filter_notSep_eq _ (fun c hc => (f3 c hc).2.1)]
  · intro c hc
    rcases List.mem_cons.mp hc with rfl | hc
    · exact ⟨by decide, by decide⟩
    rcases List.mem_cons.mp hc with rfl | hc
    · exact ⟨by decide, by decide⟩
    rcases List.mem_cons.mp hc with rfl | hc
    · exact ⟨by decide, by decide⟩
    rcases List.mem_append.mp hc with h | h
    · exact ⟨(f8 c h).2.2.1, (f8 c h).2.2.2⟩
    · exact ⟨(f3 c h).2.2.1, (f3 c h).2.2.2⟩

/-- Compacted form of the id with the `L0T` typo. -/
theorem compactOf_typo (d8 d3 : List Char)
    (hd8 : d8.all isDig = true) (hd3 : d3.all isDig = true) :
    compactOf ("L0T-" ++ String.mk d8 ++ "-" ++ String.mk d3) =
      'L' :: 'O' :: 'T' :: (d8 ++ d3) := by
  have f8 := fun c (hc : c ∈ d8) => isDig_facts c (List.all_eq_true.mp hd8 c hc)
  have f3 := fun c (hc : c ∈ d3) => isDig_facts c (List.all_eq_true.mp hd3 c hc)
  have hlist : ("L0T-" ++ String.mk d8 ++ "-" ++ String.mk d3).toList
      = 'L' :: '0' :: 'T' :: '-' :: (d8 ++ '-' :: d3) := by
    simp [String.toList, String.data_append]
  rw [compactOf, hlist, pyNorm_eq_self]
  · rw [replaceL0T_L0T, replaceL0T_cons_ne '-' _ (by decide),
      replaceL0T_noL _ (by
        intro c hc
        rcases List.mem_append.mp hc with h | h
        · exact (f8 c h).1
        · rcases List.mem_cons.mp h with rfl | h
          · decide
          · exact (f3 c h).1)]
    rw [filter_notSep_cons_keep _ _ (by decide), filter_notSep_cons_keep _ _ (by decide),
      filter_notSep_cons_keep _ _ (by decide), filter_notSep_cons_sep _ _ (by decide),
      List.filter_append, filter_notSep_eq _ (fun c hc => (f8 c hc).2.1),
      filter_notSep_cons_sep _ _ (by decide), filter_notSep_eq _ (fun c hc => (f3 c hc).2.1)]
  · intro c hc
    rcases List.mem_cons.mp hc with rfl | hc
    · exact ⟨by decide, by decide⟩
    rcases List.mem_cons.mp hc with rfl | hc
    · exact ⟨by decide, by decide⟩
    rcases List.mem_cons.mp hc with rfl | hc
    · exact ⟨by decide, by decide⟩
    rcases List.mem_cons.mp hc with rfl | hc
    · exact ⟨by decide, by decide⟩
    rcases List.mem_append.mp hc with h | h
    · exact ⟨(f8 c h).2.2.1, (f8 c h).2.2.2⟩
    rcases List.mem_cons.mp h with rfl | h
    · exact ⟨by decide, by decide⟩
    · exact ⟨(f3 c h).2.2.1, (f3 c h).2.2.2⟩

/-! ## C9 -/

/-- C9: `normalize_lot_id` is idempotent on canonical ids — for any 8-digit
date part and 3-digit sequence part it maps `LOT-YYYYMMDD-XXX` to itself with
status `"ok"` — and separator/typo invariant: the underscore-separated form,
the separator-free form, and the `L0T` typo form of the same digits all
normalize to the same canonical id. -/
theorem claim9_idempotent_separator_invariant (d8 d3 : List Char)
    (h8 : d8.length = 8) (h3 : d3.length = 3)
    (hd8 : d8.all isDig = true) (hd3 : d3.all isDig = true) :
    normalize_lot_id (some ("LOT-" ++ String.mk d8 ++ "-" ++ String.mk d3)) =
      ⟨some ("LOT-" ++ String.mk d8 ++ "-" ++ String.mk d3), "ok", none⟩
    ∧ normalize_lot_id (some ("LOT_" ++ String.mk d8 ++ "_" ++ String.mk d3)) =
      ⟨some ("LOT-" ++ String.mk d8 ++ "-" ++ String.mk d3), "ok", none⟩
    ∧ normalize_lot_id (some ("LOT" ++ String.mk d8 ++ String.mk d3)) =
      ⟨some ("LOT-" ++ String.mk d8 ++ "-" ++ String.mk d3), "ok", none⟩
    ∧ normalize_lot_id (some ("L0T-" ++ String.mk d8 ++ "-" ++ String.mk d3)) =
      ⟨some ("LOT-" ++ String.mk d8 ++ "-" ++ String.mk d3), "ok", none⟩ :=
  ⟨normalize_of_compact_exact _ d8 d3 h8 h3 hd8 hd3 (compactOf_canon d8 d3 hd8 hd3),
    normalize_of_compact_exact _ d8 d3 h8 h3 hd8 hd3 (compactOf_underscore d8 d3 hd8 hd3),
    normalize_of_compact_exact _ d8 d3 h8 h3 hd8 hd3 (compactOf_compactForm d8 d3 hd8 hd3),
    normalize_of_compact_exact _ d8 d3 h8 h3 hd8 hd3 (compactOf_typo d8 d3 hd8 hd3)⟩

/-- Witness for C9 at the spec's concrete digits `20260101` / `001`. -/
theorem claim9_idempotent_separator_invariant_witness :
    normalize_lot_id (some "LOT-20260101-001") =
      ⟨some "LOT-20260101-001", "ok", none⟩
    ∧ normalize_lot_id (some "L0T-20260101-001") =
      ⟨some "LOT-20260101-001", "ok", none⟩ := by
  have h := claim9_idempotent_separator_invariant "20260101".toList "001".toList
    (by decide) (by decide) (by decide) (by decide)
  exact ⟨h.1, h.2.2.2⟩

/-- The optional-separator consumer is the identity on separator-free lists. -/
theorem seqSepOpt_sepFree (cs : List Char) (h : ∀ c ∈ cs, isSepChar c = false) :
    seqSepOpt cs = cs := by
  cases cs with
  | nil => rfl
  | cons c rest =>
    have hc := h c (by simp)
    simp only [seqSepOpt]
    rw [if_neg]
    intro hcond
    simp only [Bool.or_eq_true, decide_eq_true_eq] at hcond
    rcases hcond with (rfl | rfl) | rfl <;> simp [isSepChar, isPySpace] at hc

/-- On a separator-free list, one `LOT_PATTERN` match attempt succeeds exactly
when `LOT` + 11 digits starts here (the optional separators are vacuous). -/
theorem lotMatchAt_sepFree (cs : List Char) (h : ∀ c ∈ cs, isSepChar c = false) :
    (lotMatchAt cs).isSome = coreAt cs := by
  rcases cs with - | ⟨a, - | ⟨b, - | ⟨c, rest⟩⟩⟩
  · rfl
  · rfl
  · rfl
  · by_cases ha : a = 'L'
    · by_cases hb : b = 'O'
      · by_cases hcT : c = 'T'
        · subst ha; subst hb; subst hcT
          have hrest : ∀ x ∈ rest, isSepChar x = false := fun x hx => h x (by simp [hx])
          have hseq1 : seqSepOpt rest = rest := seqSepOpt_sepFree rest hrest
          have hseq2 : seqSepOpt (rest.drop 8) = rest.drop 8 :=
            seqSepOpt_sepFree _ (fun x hx => hrest x (List.mem_of_mem_drop hx))
          have htake : rest.take 11 = rest.take 8 ++ (rest.drop 8).take 3 :=
            List.take_add rest 8 3
          have hl8 : (rest.take 8).length = min 8 rest.length := List.length_take 8 rest
          have hl3 : ((rest.drop 8).take 3).length = min 3 (rest.drop 8).length :=
            List.length_take 3 (rest.drop 8)
          have hld : (rest.drop 8).length = rest.length - 8 := List.length_drop 8 rest
          have hl11 : (rest.take 11).length = min 11 rest.length := List.length_take 11 rest
          rw [hld] at hl3
          have hch8 := min_choice 8 rest.length
          have hch3 := min_choice 3 (rest.length - 8)
          have hch11 := min_choice 11 rest.length
          have hle8a := Nat.min_le_left 8 rest.length
          have hle8b := Nat.min_le_right 8 rest.length
          have hle3a := Nat.min_le_left 3 (rest.length - 8)
          have hle3b := Nat.min_le_right 3 (rest.length - 8)
          have hle11a := Nat.min_le_left 11 rest.length
          have hle11b := Nat.min_le_right 11 rest.length
          simp only [lotMatchAt, coreAt, hseq1, hseq2]
          by_cases hc1 : (rest.take 8).length = 8 ∧ (rest.take 8).all isDig = true
          · by_cases hc2 :
                ((rest.drop 8).take 3).length = 3 ∧ ((rest.drop 8).take 3).all isDig = true
            · rw [if_pos ⟨trivial, trivial, trivial⟩, if_pos hc1, if_pos hc2]
              have : (rest.take 11).length = 11 := by omega
              simp [htake, List.all_append, hc1.2, hc2.2, this]
              omega
            · rw [if_pos ⟨trivial, trivial, trivial⟩, if_pos hc1, if_neg hc2]
              rcases Decidable.not_and_iff_or_not.mp hc2 with hlen | hdig
              · simp
                intro h11
                exfalso
                omega
              · have hfalse : (rest.take 11).all isDig = false := by
                  rw [htake, List.all_append]
                  simp [Bool.eq_false_iff.mpr hdig]
                simp [hfalse]
          · rw [if_pos ⟨trivial, trivial, trivial⟩, if_neg hc1]
            rcases Decidable.not_and_iff_or_not.mp hc1 with hlen | hdig
            · simp
              intro h11
              exfalso
              omega
            · have hfalse : (rest.take 11).all isDig = false := by
                rw [htake, List.all_append]
                simp [Bool.eq_false_iff.mpr hdig]
              simp [hfalse]
        · simp only [lotMatchAt, coreAt]
          rw [if_neg (by rintro ⟨-, -, h3⟩; exact hcT h3)]
          simp [hcT]
      · simp only [lotMatchAt, coreAt]
        rw [if_neg (by rintro ⟨-, h2, -⟩; exact hb h2)]
        simp [hb]
    · simp only [lotMatchAt, coreAt]
      rw [if_neg (by rintro ⟨h1, -, -⟩; exact ha h1)]
      simp [ha]

/-- On a separator-free list, the unanchored `LOT_PATTERN` search succeeds
exactly when the list contains `LOT` followed by 11 digits. -/
theorem lotSearch_sepFree (cs : List Char) (h : ∀ c ∈ cs, isSepChar c = false) :
    (lotSearch cs).isSome = hasLotCore cs := by
  induction cs with
  | nil => rfl
  | cons c rest ih =>
    have hat := lotMatchAt_sepFree (c :: rest) h
    have ih2 := ih (fun x hx => h x (by simp [hx]))
    simp only [lotSearch, hasLotCore]
    rcases hm : lotMatchAt (c :: rest) with - | g
    · rw [hm] at hat
      simp only [Option.isSome_none] at hat
      rw [← hat]
      simpa using ih2
    · rw [hm] at hat
      simp only [Option.isSome_some] at hat
      simp [← hat]

/-- For any separator-free list (such as the compacted form inside
`normalize_lot_id`), the search over the `^LOT(\d{8})(\d{3})$`-rewritten string
succeeds exactly when the list contains `LOT` + 11 digits. -/
theorem lotSearch_structured_isSome (cs : List Char)
    (h : ∀ c ∈ cs, isSepChar c = false) :
    (lotSearch (structuredOf cs)).isSome = hasLotCore cs := by
  rcases hcs : cs with - | ⟨a, - | ⟨b, - | ⟨c, rest⟩⟩⟩
  · rfl
  · rw [← hcs, show structuredOf cs = cs from hcs ▸ rfl, hcs]
    exact lotSearch_sepFree _ (hcs ▸ h)
  · rw [← hcs, show structuredOf cs = cs from hcs ▸ rfl, hcs]
    exact lotSearch_sepFree _ (hcs ▸ h)
  · subst hcs
    by_cases hcond : a = 'L' ∧ b = 'O' ∧ c = 'T' ∧ rest.length = 11 ∧ rest.all isDig = true
    · obtain ⟨rfl, rfl, rfl, hlen, hdig⟩ := hcond
      have h8 : (rest.take 8).length = 8 := by
        rw [List.length_take]
        omega
      have h3 : (rest.drop 8).length = 3 := by
        rw [List.length_drop]
        omega
      have hd8 : (rest.take 8).all isDig = true :=
        List.all_eq_true.mpr (fun x hx =>
          List.all_eq_true.mp hdig x (List.mem_of_mem_take hx))
      have hd3 : (rest.drop 8).all isDig = true :=
        List.all_eq_true.mpr (fun x hx =>
          List.all_eq_true.mp hdig x (List.mem_of_mem_drop hx))
      have hstr : structuredOf ('L' :: 'O' :: 'T' :: rest) =
          'L' :: 'O' :: 'T' :: '-' :: (rest.take 8 ++ '-' :: rest.drop 8) := by
        simp only [structuredOf]
        rw [if_pos ⟨trivial, trivial, trivial, hlen, hdig⟩]
      have hdrop3 : (rest.drop 8).take 3 = rest.drop 8 := h3 ▸ List.take_length (rest.drop 8)
      rw [hstr, lotSearch_head _ _
        (lotMatchAt_canon (rest.take 8) (rest.drop 8) h8 h3 hd8 hd3)]
      have hcore : coreAt ('L' :: 'O' :: 'T' :: rest) = true := by
        have ht : rest.take 11 = rest := hlen ▸ List.take_length rest
        simp only [coreAt, ht]
        simp [hlen, hdig]
      simp [hasLotCore, hcore]
    · have hstr : structuredOf (a :: b :: c :: rest) = a :: b :: c :: rest := by
        simp only [structuredOf]
        rw [if_neg hcond]
      rw [hstr]
      exact lotSearch_sepFree _ h

/-- C1 amended: `normalize_lot_id` returns status `"ok"` if and only if the
compacted form of the input *contains* `LOT` followed by (at least) 8 + 3
digits — containment, not exact shape, because `LOT_PATTERN.search` is
unanchored; when the compacted form has no such core, the input is rejected
with `needs_review` and, if it is not blank after trimming, with the reason
`"Lot ID does not match expected pattern: <repr of original>"`. -/
theorem claim1_status_ok_iff_core (raw : String) :
    (((normalize_lot_id (some raw)).status = "ok") ↔ hasLotCore (compactOf raw) = true)
    ∧ (hasLotCore (compactOf raw) = false →
        (normalize_lot_id (some raw)).status = "needs_review"
        ∧ (pyStrip raw.toList ≠ [] →
            (normalize_lot_id (some raw)).reason =
              some ("Lot ID does not match expected pattern: " ++ pyRepr raw))) := by
  by_cases hbl : pyUpper (pyStrip raw.toList) = []
  · have hcomp : compactOf raw = [] := by
      rw [compactOf, hbl]
      simp [replaceL0T]
    rw [normalize_some_blank raw hbl, hcomp]
    constructor
    · simp [hasLotCore]
    · intro _hc
      refine ⟨rfl, fun hne => absurd ?_ hne⟩
      exact List.map_eq_nil_iff.mp hbl
  · have hsf : ∀ c ∈ compactOf raw, isSepChar c = false := by
      intro c hc
      have := List.mem_filter.mp hc
      simpa using this.2
    have hkey : (lotSearch (structuredOf (compactOf raw))).isSome = hasLotCore (compactOf raw) :=
      lotSearch_structured_isSome _ hsf
    rw [normalize_some_eq raw hbl]
    rcases hls : lotSearch (structuredOf (compactOf raw)) with - | ⟨d8, d3⟩
    · rw [hls] at hkey
      simp only [Option.isSome_none] at hkey
      constructor
      · rw [← hkey]
        simp
      · intro _hc
        exact ⟨rfl, fun _ => rfl⟩
    · rw [hls] at hkey
      simp only [Option.isSome_some] at hkey
      constructor
      · rw [← hkey]
        simp
      · intro hfalse
        rw [← hkey] at hfalse
        cases hfalse

/-- Witness for C1 (amended) at the concrete rejected input `"BADLOT"`. -/
theorem claim1_status_ok_iff_core_witness :
    (normalize_lot_id (some "BADLOT")).status = "needs_review"
    ∧ (normalize_lot_id (some "BADLOT")).reason =
        some ("Lot ID does not match expected pattern: " ++ pyRepr "BADLOT") := by
  have h := (claim1_status_ok_iff_core "BADLOT").2 (by decide)
  exact ⟨h.1, h.2 (by decide)⟩

/-! ## Order lemmas for the latest-shipping sort -/

/-- Characters with equal code points are equal. -/
theorem charNat_inj (a b : Char) (h : a.toNat = b.toNat) : a = b := by
  cases a
  cases b
  simp [Char.toNat] at h
  congr 1
  exact UInt32.ext h

/-- Totality of the lexicographic order on character lists. -/
theorem listLexLe_total : ∀ as bs : List Char, listLexLe as bs = true ∨ listLexLe bs as = true
  | [], _ => Or.inl rfl
  | _ :: _, [] => Or.inr rfl
  | a :: as, b :: bs => by
    by_cases hab : a = b
    · subst hab
      rcases listLexLe_total as bs with h | h
      · exact Or.inl (by simp [listLexLe, h])
      · exact Or.inr (by simp [listLexLe, h])
    · rcases Nat.lt_or_ge a.toNat b.toNat with h | h
      · exact Or.inl (by simp [listLexLe, h])
      · have hne : a.toNat ≠ b.toNat := fun he => hab (charNat_inj a b he)
        have : b.toNat < a.toNat := by omega
        exact Or.inr (by simp [listLexLe, this])

/-- Transitivity of the lexicographic order on character lists. -/
theorem listLexLe_trans : ∀ as bs cs : List Char,
    listLexLe as bs = true → listLexLe bs cs = true → listLexLe as cs = true
  | [], _, _ => fun _ _ => rfl
  | a :: as, [], _ => fun h _ => by simp [listLexLe] at h
  | a :: as, b :: bs, [] => fun _ h => by simp [listLexLe] at h
  | a :: as, b :: bs, c :: cs => fun h1 h2 => by
    simp only [listLexLe, Bool.or_eq_true, Bool.and_eq_true, decide_eq_true_eq] at h1 h2 ⊢
    rcases h1 with h1 | ⟨rfl, h1⟩
    · rcases h2 with h2 | ⟨rfl, h2⟩
      · exact Or.inl (by omega)
      · exact Or.inl h1
    · rcases h2 with h2 | ⟨rfl, h2⟩
      · exact Or.inl h2
      · exact Or.inr ⟨rfl, listLexLe_trans as bs cs h1 h2⟩

/-- Antisymmetry of the lexicographic order on character lists. -/
theorem listLexLe_antisymm : ∀ as bs : List Char,
    listLexLe as bs = true → listLexLe bs as = true → as = bs
  | [], [] => fun _ _ => rfl
  | [], _ :: _ => fun _ h => by simp [listLexLe] at h
  | _ :: _, [] => fun h _ => by simp [listLexLe] at h
  | a :: as, b :: bs => fun h1 h2 => by
    simp only [listLexLe, Bool.or_eq_true, Bool.and_eq_true, decide_eq_true_eq] at h1 h2
    rcases h1 with h1 | ⟨rfl, h1⟩
    · rcases h2 with h2 | ⟨rfl, -⟩
      · omega
      · omega
    · rcases h2 with h2 | ⟨-, h2⟩
      · omega
      · rw [listLexLe_antisymm as bs h1 h2]

/-- Totality of the string order. -/
theorem strLeB_total (a b : String) : strLeB a b = true ∨ strLeB b a = true :=
  listLexLe_total a.toList b.toList

/-- Transitivity of the string order. -/
theorem strLeB_trans (a b c : String) (h1 : strLeB a b = true) (h2 : strLeB b c = true) :
    strLeB a c = true :=
  listLexLe_trans a.toList b.toList c.toList h1 h2

/-- Antisymmetry of the string order. -/
theorem strLeB_antisymm (a b : String) (h1 : strLeB a b = true) (h2 : strLeB b a = true) :
    a = b :=
  String.toList_inj.mp (listLexLe_antisymm a.toList b.toList h1 h2)

/-- Reflexivity of the string order. -/
theorem strLeB_refl (a : String) : strLeB a a = true := by
  rcases strLeB_total a a with h | h <;> exact h

/-- Characterization of the strict string order. -/
theorem strLtB_iff (a b : String) : strLtB a b = true ↔ strLeB a b = true ∧ a ≠ b := by
  simp [strLtB, Bool.and_eq_true]

/-- The strict string order is irreflexive. -/
theorem strLtB_irrefl (a : String) : strLtB a a = false := by
  simp [strLtB]

/-- The strict string order is transitive. -/
theorem strLtB_trans (a b c : String) (h1 : strLtB a b = true) (h2 : strLtB b c = true) :
    strLtB a c = true := by
  rw [strLtB_iff] at h1 h2 ⊢
  refine ⟨strLeB_trans a b c h1.1 h2.1, fun he => ?_⟩
  subst he
  exact h2.2 (strLeB_antisymm b a h2.1 h1.1)

/-- Trichotomy for the strict string order. -/
theorem strLtB_trichotomy (a b : String) :
    strLtB a b = true ∨ a = b ∨ strLtB b a = true := by
  by_cases he : a = b
  · exact Or.inr (Or.inl he)
  rcases strLeB_total a b with h | h
  · exact Or.inl ((strLtB_iff a b).mpr ⟨h, he⟩)
  · exact Or.inr (Or.inr ((strLtB_iff b a).mpr ⟨h, fun x => he x.symm⟩))

/-- Reflexivity of the descending-date order. -/
theorem dateDescLe_refl (a : Option Timestamp) : dateDescLe a a = true := by
  cases a <;> simp [dateDescLe]

/-- Totality of the descending-date order. -/
theorem dateDescLe_total (a b : Option Timestamp) :
    dateDescLe a b = true ∨ dateDescLe b a = true := by
  cases a <;> cases b <;> simp [dateDescLe] <;> omega

/-- Transitivity of the descending-date order. -/
theorem dateDescLe_trans (a b c : Option Timestamp)
    (h1 : dateDescLe a b = true) (h2 : dateDescLe b c = true) : dateDescLe a c = true := by
  cases a <;> cases b <;> cases c <;> simp_all [dateDescLe] <;> omega

/-- A structurally equal pair of optional dates is equal in the descending order. -/
theorem dateDescEq_refl (a : Option Timestamp) : dateDescEq a a = true := by
  simp [dateDescEq, dateDescLe_refl]

/-- The strict descending-date order excludes equality. -/
theorem dateDescLt_of_not_eq (a b : Option Timestamp)
    (hle : dateDescLe a b = true) (hne : dateDescEq a b = false) :
    dateDescLt a b = true := by
  simp only [dateDescEq, hle, Bool.true_and] at hne
  simp [dateDescLt, hle, hne]

/-- The strict descending-date order implies the weak one. -/
theorem dateDescLt_le (a b : Option Timestamp) (h : dateDescLt a b = true) :
    dateDescLe a b = true := by
  simp only [dateDescLt, Bool.and_eq_true] at h
  exact h.1

/-- The equivalence part of the descending-date order implies the weak order. -/
theorem dateDescEq_le (a b : Option Timestamp) (h : dateDescEq a b = true) :
    dateDescLe a b = true := by
  simp only [dateDescEq, Bool.and_eq_true] at h
  exact h.1

/-- Decomposition of the lexicographic latest-shipping sort order. -/
theorem shipLeB_iff (a b : Nat × ShipPrepared) : shipLeB a b = true ↔
    strLtB (shipKeyLot a) (shipKeyLot b) = true ∨
      (shipKeyLot a = shipKeyLot b ∧
        (dateDescLt a.2.ship_date b.2.ship_date = true ∨
          (dateDescEq a.2.ship_date b.2.ship_date = true ∧ a.1 ≤ b.1))) := by
  simp [shipLeB, Bool.or_eq_true, Bool.and_eq_true, decide_eq_true_eq, and_or_left]

instance : IsTotal (Nat × ShipPrepared) shipRel := by
  constructor
  intro a b
  unfold shipRel
  rcases strLtB_trichotomy (shipKeyLot a) (shipKeyLot b) with h | h | h
  · exact Or.inl ((shipLeB_iff a b).mpr (Or.inl h))
  · by_cases hd : dateDescEq a.2.ship_date b.2.ship_date = true
    · have hd' : dateDescEq b.2.ship_date a.2.ship_date = true := by
        simp only [dateDescEq, Bool.and_eq_true] at hd ⊢
        exact ⟨hd.2, hd.1⟩
      rcases Nat.le_total a.1 b.1 with hi | hi
      · exact Or.inl ((shipLeB_iff a b).mpr (Or.inr ⟨h, Or.inr ⟨hd, hi⟩⟩))
      · exact Or.inr ((shipLeB_iff b a).mpr (Or.inr ⟨h.symm, Or.inr ⟨hd', hi⟩⟩))
    · rcases dateDescLe_total a.2.ship_date b.2.ship_date with hle | hle
      · exact Or.inl ((shipLeB_iff a b).mpr (Or.inr ⟨h,
          Or.inl (dateDescLt_of_not_eq _ _ hle (Bool.eq_false_iff.mpr hd))⟩))
      · have hd2 : dateDescEq b.2.ship_date a.2.ship_date = false := by
          rcases hb : dateDescEq b.2.ship_date a.2.ship_date with - | -
          · rfl
          · exfalso
            apply hd
            simp only [dateDescEq, Bool.and_eq_true] at hb ⊢
            exact ⟨hb.2, hb.1⟩
        exact Or.inr ((shipLeB_iff b a).mpr (Or.inr ⟨h.symm,
          Or.inl (dateDescLt_of_not_eq _ _ hle hd2)⟩))
  · exact Or.inr ((shipLeB_iff b a).mpr (Or.inl h))

/-- Transitivity of the strict descending-date order. -/
theorem dateDescLt_trans (a b c : Option Timestamp)
    (h1 : dateDescLt a b = true) (h2 : dateDescLt b c = true) : dateDescLt a c = true := by
  simp only [dateDescLt, Bool.and_eq_true, Bool.not_eq_true'] at h1 h2 ⊢
  refine ⟨dateDescLe_trans _ _ _ h1.1 h2.1, ?_⟩
  cases hca : dateDescLe c a
  · rfl
  · exact absurd (dateDescLe_trans b c a h2.1 hca) (by simp [h1.2])

/-- Strict-then-equivalent composes to strict in the descending-date order. -/
theorem dateDescLt_of_lt_of_eq (a b c : Option Timestamp)
    (h1 : dateDescLt a b = true) (h2 : dateDescEq b c = true) : dateDescLt a c = true := by
  simp only [dateDescLt, dateDescEq, Bool.and_eq_true, Bool.not_eq_true'] at h1 h2 ⊢
  refine ⟨dateDescLe_trans _ _ _ h1.1 h2.1, ?_⟩
  cases hca : dateDescLe c a
  · rfl
  · exact absurd (dateDescLe_trans b c a h2.1 hca) (by simp [h1.2])

/-- Equivalent-then-strict composes to strict in the descending-date order. -/
theorem dateDescLt_of_eq_of_lt (a b c : Option Timestamp)
    (h1 : dateDescEq a b = true) (h2 : dateDescLt b c = true) : dateDescLt a c = true := by
  simp only [dateDescLt, dateDescEq, Bool.and_eq_true, Bool.not_eq_true'] at h1 h2 ⊢
  refine ⟨dateDescLe_trans _ _ _ h1.1 h2.1, ?_⟩
  cases hca : dateDescLe c a
  · rfl
  · exact absurd (dateDescLe_trans c a b hca h1.1) (by simp [h2.2])

/-- Transitivity of descending-date equivalence. -/
theorem dateDescEq_trans (a b c : Option Timestamp)
    (h1 : dateDescEq a b = true) (h2 : dateDescEq b c = true) : dateDescEq a c = true := by
  simp only [dateDescEq, Bool.and_eq_true] at h1 h2 ⊢
  exact ⟨dateDescLe_trans _ _ _ h1.1 h2.1, dateDescLe_trans _ _ _ h2.2 h1.2⟩

instance : IsTrans (Nat × ShipPrepared) shipRel := by
  constructor
  intro a b c h1 h2
  unfold shipRel at h1 h2 ⊢
  rw [shipLeB_iff] at h1 h2 ⊢
  rcases h1 with h1 | ⟨he1, hd1⟩
  · rcases h2 with h2 | ⟨he2, -⟩
    · exact Or.inl (strLtB_trans _ _ _ h1 h2)
    · exact Or.inl (he2 ▸ h1)
  · rcases h2 with h2 | ⟨he2, hd2⟩
    · exact Or.inl (he1 ▸ h2)
    · refine Or.inr ⟨he1.trans he2, ?_⟩
      rcases hd1 with hd1 | ⟨hd1, hi1⟩
      · rcases hd2 with hd2 | ⟨hd2, -⟩
        · exact Or.inl (dateDescLt_trans _ _ _ hd1 hd2)
        · exact Or.inl (dateDescLt_of_lt_of_eq _ _ _ hd1 hd2)
      · rcases hd2 with hd2 | ⟨hd2, hi2⟩
        · exact Or.inl (dateDescLt_of_eq_of_lt _ _ _ hd1 hd2)
        · exact Or.inr ⟨dateDescEq_trans _ _ _ hd1 hd2, Nat.le_trans hi1 hi2⟩

/-! ## Lemmas about keep-first deduplication -/

/-- Elements of the deduplicated list come from the original list. -/
theorem mem_of_mem_dropDupFirstByAux {α β : Type} (k : α → β) [DecidableEq β] :
    ∀ (seen : List β) (xs : List α) (x : α), x ∈ dropDupFirstByAux k seen xs → x ∈ xs := by
  intro seen xs
  induction xs generalizing seen with
  | nil => intro x hx; simp [dropDupFirstByAux] at hx
  | cons y ys ih =>
    intro x hx
    simp only [dropDupFirstByAux] at hx
    by_cases hk : k y ∈ seen
    · rw [if_pos hk] at hx
      exact List.mem_cons_of_mem y (ih seen x hx)
    · rw [if_neg hk] at hx
      rcases List.mem_cons.mp hx with rfl | hx
      · exact List.mem_cons_self x ys
      · exact List.mem_cons_of_mem y (ih _ x hx)

/-- Keys of emitted elements are never in the seen set. -/
theorem key_notin_seen_dropDupFirstByAux {α β : Type} (k : α → β) [DecidableEq β] :
    ∀ (seen : List β) (xs : List α) (x : α), x ∈ dropDupFirstByAux k seen xs → k x ∉ seen := by
  intro seen xs
  induction xs generalizing seen with
  | nil => intro x hx; simp [dropDupFirstByAux] at hx
  | cons y ys ih =>
    intro x hx
    simp only [dropDupFirstByAux] at hx
    by_cases hk : k y ∈ seen
    · rw [if_pos hk] at hx
      exact ih seen x hx
    · rw [if_neg hk] at hx
      rcases List.mem_cons.mp hx with rfl | hx
      · exact hk
      · intro hmem
        exact (ih _ x hx) (List.mem_cons_of_mem _ hmem)

/-- A key reached by the traversal and not yet seen is represented in the output. -/
theorem exists_key_dropDupFirstByAux {α β : Type} (k : α → β) [DecidableEq β] :
    ∀ (seen : List β) (xs : List α) (v : β), (∃ x ∈ xs, k x = v) → v ∉ seen →
      ∃ y ∈ dropDupFirstByAux k seen xs, k y = v := by
  intro seen xs
  induction xs generalizing seen with
  | nil => rintro v ⟨x, hx, -⟩ -; simp at hx
  | cons y ys ih =>
    rintro v ⟨x, hx, rfl⟩ hv
    simp only [dropDupFirstByAux]
    by_cases hk : k y ∈ seen
    · rw [if_pos hk]
      rcases List.mem_cons.mp hx with rfl | hx
      · exact absurd hk hv
      · exact ih seen (k x) ⟨x, hx, rfl⟩ hv
    · rw [if_neg hk]
      rcases List.mem_cons.mp hx with rfl | hx
      · exact ⟨x, List.mem_cons_self x _, rfl⟩
      · by_cases hkv : k x = k y
        · exact ⟨y, List.mem_cons_self y _, hkv.symm⟩
        · obtain ⟨z, hz, hzv⟩ := ih (k y :: seen) (k x) ⟨x, hx, rfl⟩
            (by simp [hkv, hv])
          exact ⟨z, List.mem_cons_of_mem y hz, hzv⟩

/-- In a `Pairwise R` list, an element emitted by keep-first deduplication is,
among all elements with its key, either the element itself or `R`-before it. -/
theorem first_occ_dropDupFirstByAux {α β : Type} (k : α → β) [DecidableEq β]
    (R : α → α → Prop) :
    ∀ (seen : List β) (xs : List α), xs.Pairwise R →
      ∀ x ∈ dropDupFirstByAux k seen xs, ∀ y ∈ xs, k y = k x → x = y ∨ R x y := by
  intro seen xs
  induction xs generalizing seen with
  | nil =>
    intro _ x hx
    simp [dropDupFirstByAux] at hx
  | cons h t ih =>
    intro hpw x hx y hy hky
    rw [List.pairwise_cons] at hpw
    simp only [dropDupFirstByAux] at hx
    by_cases hk : k h ∈ seen
    · rw [if_pos hk] at hx
      rcases List.mem_cons.mp hy with rfl | hy
      · exact absurd (hky ▸ hk) (key_notin_seen_dropDupFirstByAux k seen t x hx)
      · exact ih seen hpw.2 x hx y hy hky
    · rw [if_neg hk] at hx
      rcases List.mem_cons.mp hx with rfl | hx
      · rcases List.mem_cons.mp hy with rfl | hy
        · exact Or.inl rfl
        · exact Or.inr (hpw.1 y hy)
      · rcases List.mem_cons.mp hy with rfl | hy
        · exact absurd (hky ▸ List.mem_cons_self (k y) seen)
            (key_notin_seen_dropDupFirstByAux k _ t x hx)
        · exact ih _ hpw.2 x hx y hy hky

/-- Emitted elements have pairwise distinct keys. -/
theorem keys_pairwise_dropDupFirstByAux {α β : Type} (k : α → β) [DecidableEq β] :
    ∀ (seen : List β) (xs : List α),
      (dropDupFirstByAux k seen xs).Pairwise (fun a b => k a ≠ k b) := by
  intro seen xs
  induction xs generalizing seen with
  | nil => simp [dropDupFirstByAux]
  | cons y ys ih =>
    simp only [dropDupFirstByAux]
    by_cases hk : k y ∈ seen
    · rw [if_pos hk]
      exact ih seen
    · rw [if_neg hk]
      refine List.pairwise_cons.mpr ⟨?_, ih _⟩
      intro z hz he
      exact (key_notin_seen_dropDupFirstByAux k _ ys z hz) (he ▸ List.mem_cons_self (k y) seen)

/-! ## C6 -/

/-- C6: `_latest_shipping_by_lot` keeps only rows with a resolved canonical
lot; for each canonical lot it returns at most one row, and exactly one iff
the prepared shipping table has a row for that lot; the selected row is one of
that lot's rows, its parsed ship date is maximal for the lot (absent dates
ranking lowest, via `dateDescLe`), and among rows tied on the date it has the
smallest original position (pandas' stable multi-key sort + keep-first
deduplication). -/
theorem claim6_latest_shipping (sdf : List ShipInput) (l : String) :
    (∀ p ∈ _latest_shipping_by_lot (_prepare_shipping sdf), p.2.canonical_lot_id.isSome = true)
    ∧ ((_latest_shipping_by_lot (_prepare_shipping sdf)).filter
        (fun p => p.2.canonical_lot_id = some l)).length ≤ 1
    ∧ ((∃ q ∈ (_prepare_shipping sdf).enum, q.2.canonical_lot_id = some l) ↔
        ((_latest_shipping_by_lot (_prepare_shipping sdf)).filter
          (fun p => p.2.canonical_lot_id = some l)).length = 1)
    ∧ (∀ p ∈ (_latest_shipping_by_lot (_prepare_shipping sdf)).filter
          (fun p => p.2.canonical_lot_id = some l),
        p ∈ (_prepare_shipping sdf).enum ∧ p.2.canonical_lot_id = some l ∧
          ∀ q ∈ (_prepare_shipping sdf).enum, q.2.canonical_lot_id = some l →
            dateDescLe p.2.ship_date q.2.ship_date = true ∧
              (q.2.ship_date = p.2.ship_date → p.1 ≤ q.1)) := by
  have hlat_eq : _latest_shipping_by_lot (_prepare_shipping sdf) =
      dropDupFirstByAux (fun p => p.2.canonical_lot_id) []
        (List.insertionSort shipRel
          ((_prepare_shipping sdf).enum.filter (fun p => p.2.canonical_lot_id.isSome))) := rfl
  have hperm := List.perm_insertionSort shipRel
    ((_prepare_shipping sdf).enum.filter (fun p => p.2.canonical_lot_id.isSome))
  have hsortedPW : (List.insertionSort shipRel
      ((_prepare_shipping sdf).enum.filter (fun p => p.2.canonical_lot_id.isSome))).Pairwise
        shipRel :=
    List.sorted_insertionSort shipRel _
  have hlat_sorted : ∀ p ∈ _latest_shipping_by_lot (_prepare_shipping sdf),
      p ∈ List.insertionSort shipRel
        ((_prepare_shipping sdf).enum.filter (fun p => p.2.canonical_lot_id.isSome)) := by
    intro p hp
    rw [hlat_eq] at hp
    exact mem_of_mem_dropDupFirstByAux _ [] _ p hp
  have hlat_valid : ∀ p ∈ _latest_shipping_by_lot (_prepare_shipping sdf),
      p ∈ (_prepare_shipping sdf).enum ∧ p.2.canonical_lot_id.isSome = true := by
    intro p hp
    have h2 := hperm.mem_iff.mp (hlat_sorted p hp)
    have h3 := List.mem_filter.mp h2
    exact ⟨h3.1, by simpa using h3.2⟩
  have hsorted_of_row : ∀ q ∈ (_prepare_shipping sdf).enum, q.2.canonical_lot_id = some l →
      q ∈ List.insertionSort shipRel
        ((_prepare_shipping sdf).enum.filter (fun p => p.2.canonical_lot_id.isSome)) := by
    intro q hq hql
    exact hperm.mem_iff.mpr (List.mem_filter.mpr ⟨hq, by simp [hql]⟩)
  have hgrp_mem : ∀ p ∈ (_latest_shipping_by_lot (_prepare_shipping sdf)).filter
      (fun p => p.2.canonical_lot_id = some l),
      p ∈ _latest_shipping_by_lot (_prepare_shipping sdf) ∧ p.2.canonical_lot_id = some l := by
    intro p hp
    have := List.mem_filter.mp hp
    exact ⟨this.1, by simpa using this.2⟩
  have hpwkeys : (_latest_shipping_by_lot (_prepare_shipping sdf)).Pairwise
      (fun a b => a.2.canonical_lot_id ≠ b.2.canonical_lot_id) := by
    rw [hlat_eq]
    exact keys_pairwise_dropDupFirstByAux _ _ _
  have hle1 : ((_latest_shipping_by_lot (_prepare_shipping sdf)).filter
      (fun p => p.2.canonical_lot_id = some l)).length ≤ 1 := by
    rcases hg : (_latest_shipping_by_lot (_prepare_shipping sdf)).filter
        (fun p => p.2.canonical_lot_id = some l) with - | ⟨a, - | ⟨b, t2⟩⟩
    · rw [hg]
      simp
    · rw [hg]
      simp
    · exfalso
      have hpw := hpwkeys.filter (fun p => decide (p.2.canonical_lot_id = some l))
      rw [hg] at hpw
      have hab := (List.pairwise_cons.mp hpw).1 b (List.mem_cons_self b t2)
      have ha := (hgrp_mem a (hg ▸ List.mem_cons_self a (b :: t2))).2
      have hb := (hgrp_mem b (hg ▸ List.mem_cons_of_mem a (List.mem_cons_self b t2))).2
      exact hab (ha.trans hb.symm)
  refine ⟨fun p hp => (hlat_valid p hp).2, hle1, ?_, ?_⟩
  · constructor
    · rintro ⟨q, hq, hql⟩
      obtain ⟨y, hy, hky⟩ := exists_key_dropDupFirstByAux
        (fun p => p.2.canonical_lot_id) [] _ (some l)
        ⟨q, hsorted_of_row q hq hql, hql⟩ (by simp)
      have hymem : y ∈ (_latest_shipping_by_lot (_prepare_shipping sdf)).filter
          (fun p => p.2.canonical_lot_id = some l) := by
        refine List.mem_filter.mpr ⟨?_, by simp [hky]⟩
        rw [hlat_eq]
        exact hy
      have hpos := List.length_pos.mpr (List.ne_nil_of_mem hymem)
      omega
    · intro hlen
      have hne : (_latest_shipping_by_lot (_prepare_shipping sdf)).filter
          (fun p => p.2.canonical_lot_id = some l) ≠ [] := by
        intro hnil
        rw [hnil] at hlen
        simp at hlen
      obtain ⟨p, hp⟩ := List.exists_mem_of_ne_nil _ hne
      obtain ⟨hpl, hpc⟩ := hgrp_mem p hp
      exact ⟨p, (hlat_valid p hpl).1, hpc⟩
  · intro p hp
    obtain ⟨hpl, hpc⟩ := hgrp_mem p hp
    refine ⟨(hlat_valid p hpl).1, hpc, ?_⟩
    intro q hq hql
    have hqsorted := hsorted_of_row q hq hql
    have hpl2 : p ∈ dropDupFirstByAux (fun p => p.2.canonical_lot_id) []
        (List.insertionSort shipRel
          ((_prepare_shipping sdf).enum.filter (fun p => p.2.canonical_lot_id.isSome))) := by
      rw [← hlat_eq]
      exact hpl
    have hfo := first_occ_dropDupFirstByAux (fun p => p.2.canonical_lot_id) shipRel []
      _ hsortedPW p hpl2 q hqsorted
      (show q.2.canonical_lot_id = p.2.canonical_lot_id by rw [hql, hpc])
    rcases hfo with rfl | hrel
    · exact ⟨dateDescLe_refl _, fun _ => Nat.le_refl _⟩
    · rw [shipRel, shipLeB_iff] at hrel
      have hkeys : shipKeyLot p = shipKeyLot q := by
        simp [shipKeyLot, hpc, hql]
      rcases hrel with hlt | ⟨-, hd⟩
      · rw [hkeys] at hlt
        rw [strLtB_irrefl] at hlt
        cases hlt
      · rcases hd with hd | ⟨hd, hi⟩
        · refine ⟨dateDescLt_le _ _ hd, fun hqd => ?_⟩
          rw [hqd] at hd
          simp [dateDescLt, dateDescLe_refl] at hd
        · exact ⟨dateDescEq_le _ _ hd, fun _ => hi⟩

/-- Concrete shipping inputs for the C6 witness: two rows of one lot. -/
def c6shipA : ShipInput :=
  ⟨some "LOT-20260101-001", some "On Hold", some "2026-01-02", none,
    "ship.xlsx", "Shipping", 2⟩

/-- Second shipping row for the C6 witness, same lot, later date. -/
def c6shipB : ShipInput :=
  ⟨some "LOT-20260101-001", some "Shipped", some "2026-01-05", none,
    "ship.xlsx", "Shipping", 3⟩

/-- Witness for C6: on a concrete two-row input the selection has exactly one
row for the lot. -/
theorem claim6_latest_shipping_witness :
    ((_latest_shipping_by_lot (_prepare_shipping [c6shipA, c6shipB])).filter
      (fun p => p.2.canonical_lot_id = some "LOT-20260101-001")).length = 1 :=
  (claim6_latest_shipping [c6shipA, c6shipB] "LOT-20260101-001").2.2.1.mp (by decide)

/-- Membership in keep-first deduplication is membership in the original list. -/
theorem mem_dedupFirst_iff {α : Type} [DecidableEq α] (xs : List α) (x : α) :
    x ∈ dedupFirst xs ↔ x ∈ xs := by
  constructor
  · intro h
    exact mem_of_mem_dropDupFirstByAux id [] xs x h
  · intro h
    obtain ⟨y, hy, hyx⟩ := exists_key_dropDupFirstByAux id [] xs x ⟨x, h, rfl⟩ (by simp)
    exact (show y = x from hyx) ▸ hy

/-! ## C10 -/

/-- C10: in `weekly_summary`, current-week rows with an absent production line
are not dropped — for every line value `l`, including `none`, the ranking has
a group row named `l` exactly when the current-week slice has a row with that
line, and that group's aggregates are computed from the rows of that line like
any other group's (no "Unspecified" substitution is applied to the group
name, unlike trending). -/
theorem claim10_null_line_group (consolidated : List ConsolidatedRow) (anchor : Timestamp)
    (cpd : Nat) (l : Option String) :
    ((∃ r ∈ currentWeekRows consolidated anchor, r.prod.production_line = l) ↔
      (∃ row ∈ (weekly_summary cpd consolidated anchor).ranking, row.production_line = l))
    ∧ ∀ row ∈ (weekly_summary cpd consolidated anchor).ranking, row.production_line = l →
        row.issue_count = ((currentWeekRows consolidated anchor).filter
            (fun r => r.prod.production_line = l)).countP (fun r => r.prod.line_issue)
        ∧ row.total_rows = ((currentWeekRows consolidated anchor).filter
            (fun r => r.prod.production_line = l)).length
        ∧ row.unique_lots = (dedupFirst (((currentWeekRows consolidated anchor).filter
            (fun r => r.prod.production_line = l)).filterMap
              (fun r => r.prod.canonical_lot_id))).length := by
  have hrank : (weekly_summary cpd consolidated anchor).ranking =
      List.insertionSort rankRel
        ((dedupFirst ((currentWeekRows consolidated anchor).map
          (fun r => r.prod.production_line))).map
            (rankGroupRow (currentWeekRows consolidated anchor))) := rfl
  have hperm := List.perm_insertionSort rankRel
    ((dedupFirst ((currentWeekRows consolidated anchor).map
      (fun r => r.prod.production_line))).map
        (rankGroupRow (currentWeekRows consolidated anchor)))
  constructor
  · constructor
    · rintro ⟨r, hr, hrl⟩
      refine ⟨rankGroupRow (currentWeekRows consolidated anchor) l, ?_, rfl⟩
      rw [hrank]
      refine hperm.mem_iff.mpr (List.mem_map_of_mem _ ?_)
      rw [mem_dedupFirst_iff]
      exact List.mem_map.mpr ⟨r, hr, hrl⟩
    · rintro ⟨row, hrow, hrl⟩
      rw [hrank] at hrow
      have hg := hperm.mem_iff.mp hrow
      obtain ⟨l0, hl0, rfl⟩ := List.mem_map.mp hg
      have : l0 = l := hrl
      subst this
      rw [mem_dedupFirst_iff] at hl0
      obtain ⟨r, hr, hrl0⟩ := List.mem_map.mp hl0
      exact ⟨r, hr, hrl0⟩
  · intro row hrow hrl
    rw [hrank] at hrow
    have hg := hperm.mem_iff.mp hrow
    obtain ⟨l0, -, rfl⟩ := List.mem_map.mp hg
    have : l0 = l := hrl
    subst this
    exact ⟨rfl, rfl, rfl⟩

/-- Concrete consolidated row for the C10 witness: a current-week row whose
`production_line` is absent. -/
def c10row : ConsolidatedRow :=
  { prod :=
      { raw_lot_id := some "LOT-20260202-001"
        production_line := none
        primary_issue := some "Tool wear"
        line_issue := true
        production_date := some ⟨2026, 2, 2, 0, 0, 0⟩
        date_error_reason := none
        canonical_lot_id := some "LOT-20260202-001"
        lot_normalization_status := "ok"
        lot_error_reason := none
        needs_review := false
        review_reason := ""
        provided_normalized_lot_id := none
        source_file := "prod.xlsx"
        source_sheet := "Production"
        source_row := 2 }
    ship_status := none
    ship_date := none
    shipping_source_file := none
    shipping_source_sheet := none
    shipping_source_row := none
    shipping_raw_lot_id := none
    shipping_match_status := "unmatched"
    needs_review := true
    review_reason := "No matching shipping lot found"
    is_problematic_but_shipped := false
    has_conflict := false
    raw_lot_aliases := some ["LOT-20260202-001"] }

/-- Witness for C10: with one null-line current-week row, the ranking contains
a group whose name is `none`. -/
theorem claim10_null_line_group_witness :
    ∃ row ∈ (weekly_summary 7 [c10row] ⟨2026, 2, 4, 0, 0, 0⟩).ranking,
      row.production_line = none :=
  (claim10_null_line_group [c10row] ⟨2026, 2, 4, 0, 0, 0⟩ 7 none).1.mp (by decide)
